import Mathlib

/-! Saturator: the valve-saturation signal path.

A shallow embedding of `Source/SaturatorDSP.{h,cpp}` and of the latency
bookkeeping of `Source/PluginProcessor.cpp`.

Conventions of the embedding:

* `float` / `double` values are modelled by exact numbers: the purely
  arithmetic leaves (DC blocker, envelope follower step, gain, dry/wet blend)
  are written over an arbitrary linearly ordered field, so they run on `ℚ`;
  everything that calls `std::tanh`, `std::exp`, `std::pow` or uses `pi` lives
  over `ℝ`.  Overflow and NaN are outside the model;
* where a property turns on rounding (the strict bounds and the strict
  asymmetry of the valve shaper), the function is given a second time with
  every result rounded to single precision (`valveShaperF32`), and the
  property is settled on that version;
* an object with mutable members becomes a structure, a method becomes a
  function returning the updated structure next to its result;
* an audio buffer is a list of channels, each channel a list of samples;
  in-place loops keep the shape of the buffer they write to;
* the JUCE classes the pipeline calls (IIR filter cascade, oversampler) are
  not part of the sources: their behaviour is a parameter (`Juce`).
-/

open Real

/-! ## Generic loop shapes -/

/-- The in-place sample loop `for (i = 0; i < n; ++i) data[i] = obj.process (data[i])`:
the object is threaded through the samples in index order. -/
def sampleLoop {σ α β : Type} (step : σ → α → σ × β) : σ → List α → σ × List β
  | s, [] => (s, [])
  | s, x :: xs =>
    let r := step s x
    let t := sampleLoop step r.1 xs
    (t.1, r.2 :: t.2)

/-- The channel loop `for (ch = 0; ch < numChannels; ++ch) ... objs[ch] ...`:
channel `ch` of the block is run against element `ch` of the per-channel
array.  Array elements beyond the channel count are left alone.  The arrays
of the source have two elements; a block with more channels would index past
them (such blocks never reach the core), and the model leaves those channels
untouched. -/
def channelLoop {σ α : Type} (body : σ → List α → σ × List α) :
    List σ → List (List α) → List σ × List (List α)
  | s :: ss, d :: ds =>
    let r := body s d
    let t := channelLoop body ss ds
    (r.1 :: t.1, r.2 :: t.2)
  | ss, [] => (ss, [])
  | [], d :: ds => ([], d :: ds)

/-! ## DC blocker (one-pole high-pass) -/

/-- Members of `SaturatorDSP::DCBlocker`. -/
structure SaturatorDSP.DCBlocker (α : Type) where
  x1 : α
  y1 : α
  coeff : α

/-- Embedding of `DCBlocker::reset`. -/
def SaturatorDSP.DCBlocker.reset {α : Type} [Zero α]
    (dc : SaturatorDSP.DCBlocker α) : SaturatorDSP.DCBlocker α :=
  { dc with x1 := 0, y1 := 0 }

/-- Embedding of `DCBlocker::prepare`. -/
noncomputable def SaturatorDSP.DCBlocker.prepare
    (dc : SaturatorDSP.DCBlocker ℝ) (sampleRate : ℝ) : SaturatorDSP.DCBlocker ℝ :=
  let fc : ℝ := 5.0
  SaturatorDSP.DCBlocker.reset { dc with coeff := 1.0 - (2.0 * π * fc / sampleRate) }

/-- Embedding of `DCBlocker::process`: `y[n] = x[n] - x[n-1] + R * y[n-1]`. -/
def SaturatorDSP.DCBlocker.process {α : Type} [Ring α]
    (dc : SaturatorDSP.DCBlocker α) (x : α) : SaturatorDSP.DCBlocker α × α :=
  let y := x - dc.x1 + dc.coeff * dc.y1
  ({ dc with x1 := x, y1 := y }, y)

/-! ## Envelope follower for sag -/

/-- Members of `SaturatorDSP::EnvelopeFollower`. -/
structure SaturatorDSP.EnvelopeFollower (α : Type) where
  envelope : α
  attackCoeff : α
  releaseCoeff : α

/-- Embedding of `EnvelopeFollower::reset`. -/
def SaturatorDSP.EnvelopeFollower.reset {α : Type} [Zero α]
    (e : SaturatorDSP.EnvelopeFollower α) : SaturatorDSP.EnvelopeFollower α :=
  { e with envelope := 0 }

/-- Embedding of `EnvelopeFollower::prepare`: both coefficients are recomputed and the
follower is reset. -/
noncomputable def SaturatorDSP.EnvelopeFollower.prepare
    (e : SaturatorDSP.EnvelopeFollower ℝ) (sampleRate : ℝ) :
    SaturatorDSP.EnvelopeFollower ℝ :=
  SaturatorDSP.EnvelopeFollower.reset
    { e with
      attackCoeff := 1.0 - Real.exp (-1.0 / (sampleRate * 0.008))
      releaseCoeff := 1.0 - Real.exp (-1.0 / (sampleRate * 0.200)) }

/-- Embedding of `EnvelopeFollower::process`. -/
def SaturatorDSP.EnvelopeFollower.process {α : Type} [LinearOrderedField α]
    (e : SaturatorDSP.EnvelopeFollower α) (input : α) :
    SaturatorDSP.EnvelopeFollower α × α :=
  let rectified := |input|
  let c := if rectified > e.envelope then e.attackCoeff else e.releaseCoeff
  let envelope := e.envelope + c * (rectified - e.envelope)
  ({ e with envelope := envelope }, envelope)

/-! ## Valve shaper -/

/-- Embedding of `SaturatorDSP::Mode`. -/
inductive SaturatorDSP.Mode where
  | Triode
  | Pentode
  | Torture
deriving DecidableEq, Repr

/-- Embedding of `SaturatorDSP::ValveParams`. -/
structure SaturatorDSP.ValveParams (α : Type) where
  curvature : α
  asymmetry : α

/-- Embedding of `SaturatorDSP::getValveParams`.  The `default:` branch of the source is
unreachable for the three enumerators. -/
def SaturatorDSP.getValveParams {α : Type} [LinearOrderedField α] :
    SaturatorDSP.Mode → SaturatorDSP.ValveParams α
  | .Triode => { curvature := 2.5, asymmetry := 0.5 }
  | .Pentode => { curvature := 4.0, asymmetry := 0.85 }
  | .Torture => { curvature := 8.0, asymmetry := 0.7 }

/-- Embedding of `SaturatorDSP::valveShaper`, in exact arithmetic (see
`SaturatorDSP.valveShaperF32` for the evaluation on `float`). -/
noncomputable def SaturatorDSP.valveShaper (x a b : ℝ) : ℝ :=
  let xp := x * (1.0 + b)
  let xn := x * (1.0 - b)
  if x ≥ 0.0 then Real.tanh (a * xp) else Real.tanh (a * xn)

/-! ## Gain -/

/-- Modelled from the spec: `juce::Decibels::decibelsToGain` is JUCE code, not
part of the sources; the spec gives the trim gains as
"linear = 10^(dB/20)". -/
noncomputable def decibelsToGain (dB : ℝ) : ℝ :=
  (10 : ℝ) ^ (dB / 20)

/-- Embedding of `juce::AudioBuffer::applyGain`: every sample of every channel is multiplied
by the gain. -/
def applyGain {α : Type} [Mul α] (gain : α) (buffer : List (List α)) : List (List α) :=
  buffer.map fun ch => ch.map fun s => s * gain

/-! ## External collaborators (JUCE) -/

/-- Embedding of `juce::dsp::ProcessSpec`. -/
structure ProcessSpec where
  sampleRate : ℝ
  maximumBlockSize : ℕ
  numChannels : ℕ

/-- The coefficient sets requested from `juce::dsp::IIR::Coefficients<float>`;
`unset` is the default-constructed coefficient object a filter holds before
its first update. -/
inductive IIRDesign where
  | unset
  | makeHighPass (sampleRate frequency Q : ℝ)
  | makeLowPass (sampleRate frequency Q : ℝ)
  | makePeakFilter (sampleRate centreFrequency Q gainFactor : ℝ)
  | makeHighShelf (sampleRate cutOffFrequency Q gainFactor : ℝ)
  | makeLowShelf (sampleRate cutOffFrequency Q gainFactor : ℝ)

/-- Behaviour of the JUCE classes used by the pipeline, which are not part of
the sources.  `F` is the delay memory of one `ProcessorDuplicator<IIR::Filter>`,
`O` the state of one `juce::dsp::Oversampling<float>` object.  The two
functions that write into the caller's buffer return the value written at
channel `ch`, sample `i`. -/
structure Juce (F O : Type) where
  /-- Delay memory of a default-constructed filter. -/
  iirInit : F
  /-- Embedding of `ProcessorDuplicator::prepare`. -/
  iirPrepare : ProcessSpec → F → F
  /-- Embedding of `ProcessorDuplicator::reset`. -/
  iirReset : F → F
  /-- Embedding of `ProcessorDuplicator::process` on a replacing context. -/
  iirProcess : IIRDesign → F → List (List ℝ) → F × (ℕ → ℕ → ℝ)
  /-- Constructor `Oversampling (numChannels, factor, filterHalfBandPolyphaseIIR, true)`. -/
  osNew : ℕ → ℕ → O
  /-- Embedding of `Oversampling::initProcessing`. -/
  osInitProcessing : O → ℕ → O
  /-- Embedding of `Oversampling::reset`. -/
  osReset : O → O
  /-- Embedding of `Oversampling::getLatencyInSamples`. -/
  osGetLatencyInSamples : O → ℝ
  /-- Embedding of `Oversampling::processSamplesUp`: the oversampled block. -/
  osProcessSamplesUp : O → List (List ℝ) → O × List (List ℝ)
  /-- Embedding of `Oversampling::processSamplesDown`, given the oversampled block as the
  per-sample loop left it. -/
  osProcessSamplesDown : O → List (List ℝ) → O × (ℕ → ℕ → ℝ)

/-- Writing a result into a buffer in place: the buffer keeps its shape and
sample `i` of channel `ch` becomes `f ch i`. -/
def overwrite {α : Type} (buffer : List (List α)) (f : ℕ → ℕ → α) : List (List α) :=
  buffer.mapIdx fun ch chan => chan.mapIdx fun i _ => f ch i

/-- Sample `i` of channel `ch`, when the buffer has one. -/
def sampleAt {α : Type} (buffer : List (List α)) (ch i : ℕ) : Option α :=
  (buffer[ch]?).bind fun chan => chan[i]?

/-- The `IIRFilter` alias of the source: shared coefficients (`state`) and the
per-channel delay memory. -/
structure IIRFilter (F : Type) where
  state : IIRDesign
  memory : F

/-- One `filter.process (ctx)` call on the buffer. -/
def IIRFilter.process {F O : Type} (J : Juce F O) (f : IIRFilter F)
    (buffer : List (List ℝ)) : IIRFilter F × List (List ℝ) :=
  let r := J.iirProcess f.state f.memory buffer
  ({ f with memory := r.1 }, overwrite buffer r.2)

/-! ## The pipeline object -/

/-- Data members of `SaturatorDSP`.  The two-element `std::array`s are lists;
a null `std::unique_ptr` is `none`. -/
structure SaturatorDSP (F O : Type) where
  currentSampleRate : ℝ
  currentBlockSize : ℕ
  currentNumChannels : ℕ
  preDCBlocker : List (SaturatorDSP.DCBlocker ℝ)
  postDCBlocker : List (SaturatorDSP.DCBlocker ℝ)
  preHPF : IIRFilter F
  preMidBoost : IIRFilter F
  preHFShelf : IIRFilter F
  postLPF : IIRFilter F
  postLowShelf : IIRFilter F
  postPresenceDip : IIRFilter F
  oversampling4x : Option O
  oversampling8x : Option O
  sagEnvelope : List (SaturatorDSP.EnvelopeFollower ℝ)
  dryBuffer : List (List ℝ)

/-- The object as constructed: in-class initialisers, null oversamplers. -/
def SaturatorDSP.init {F O : Type} (J : Juce F O) : SaturatorDSP F O :=
  { currentSampleRate := 44100.0
    currentBlockSize := 512
    currentNumChannels := 2
    preDCBlocker := [⟨0, 0, 0⟩, ⟨0, 0, 0⟩]
    postDCBlocker := [⟨0, 0, 0⟩, ⟨0, 0, 0⟩]
    preHPF := ⟨.unset, J.iirInit⟩
    preMidBoost := ⟨.unset, J.iirInit⟩
    preHFShelf := ⟨.unset, J.iirInit⟩
    postLPF := ⟨.unset, J.iirInit⟩
    postLowShelf := ⟨.unset, J.iirInit⟩
    postPresenceDip := ⟨.unset, J.iirInit⟩
    oversampling4x := none
    oversampling8x := none
    sagEnvelope := [⟨0, 0, 0⟩, ⟨0, 0, 0⟩]
    dryBuffer := [] }

/-- Embedding of `SaturatorDSP::updatePreEmphasis`. -/
noncomputable def SaturatorDSP.updatePreEmphasis {F O : Type} (dsp : SaturatorDSP F O)
    (sampleRate : ℝ) (mode : SaturatorDSP.Mode) : SaturatorDSP F O :=
  let hpfFreq : ℝ := 60.0
  let midFreq : ℝ := 1000.0
  let midQ : ℝ := 0.6
  let hfShelfFreq : ℝ := 6000.0
  let midGainDb : ℝ :=
    match mode with
    | .Triode => 4.0
    | .Pentode => 8.0
    | .Torture => 6.0
  let hfShelfGainDb : ℝ :=
    match mode with
    | .Triode => 2.0
    | .Pentode => 3.0
    | .Torture => 4.0
  { dsp with
    preHPF := { dsp.preHPF with state := .makeHighPass sampleRate hpfFreq 0.5 }
    preMidBoost :=
      { dsp.preMidBoost with
        state := .makePeakFilter sampleRate midFreq midQ (decibelsToGain midGainDb) }
    preHFShelf :=
      { dsp.preHFShelf with
        state := .makeHighShelf sampleRate hfShelfFreq 0.7 (decibelsToGain hfShelfGainDb) } }

/-- Embedding of `SaturatorDSP::updatePostEmphasis`. -/
noncomputable def SaturatorDSP.updatePostEmphasis {F O : Type} (dsp : SaturatorDSP F O)
    (sampleRate : ℝ) (mode : SaturatorDSP.Mode) : SaturatorDSP F O :=
  let lowShelfFreq : ℝ := 120.0
  let presenceDipFreq : ℝ := 3000.0
  let lpfFreq : ℝ :=
    match mode with
    | .Triode => 14000.0
    | .Pentode => 11000.0
    | .Torture => 8000.0
  let presenceDipDb : ℝ :=
    match mode with
    | .Triode => -2.0
    | .Pentode => -4.0
    | .Torture => -6.0
  let lowShelfGainDb : ℝ :=
    match mode with
    | .Triode => 2.0
    | .Pentode => 3.5
    | .Torture => 4.0
  { dsp with
    postLPF := { dsp.postLPF with state := .makeLowPass sampleRate lpfFreq 0.7 }
    postLowShelf :=
      { dsp.postLowShelf with
        state := .makeLowShelf sampleRate lowShelfFreq 0.7 (decibelsToGain lowShelfGainDb) }
    postPresenceDip :=
      { dsp.postPresenceDip with
        state := .makePeakFilter sampleRate presenceDipFreq 1.0 (decibelsToGain presenceDipDb) } }

/-- Embedding of `SaturatorDSP::prepare`. -/
noncomputable def SaturatorDSP.prepare {F O : Type} (J : Juce F O) (dsp : SaturatorDSP F O)
    (sampleRate : ℝ) (samplesPerBlock numChannels : ℕ) : SaturatorDSP F O :=
  let spec : ProcessSpec :=
    { sampleRate := sampleRate, maximumBlockSize := samplesPerBlock, numChannels := numChannels }
  let dsp : SaturatorDSP F O :=
    { dsp with
      currentSampleRate := sampleRate
      currentBlockSize := samplesPerBlock
      currentNumChannels := numChannels
      preDCBlocker := dsp.preDCBlocker.map fun dc => dc.prepare sampleRate
      postDCBlocker := dsp.postDCBlocker.map fun dc => dc.prepare sampleRate
      sagEnvelope := dsp.sagEnvelope.map fun env => env.prepare sampleRate
      oversampling4x := some (J.osInitProcessing (J.osNew numChannels 2) samplesPerBlock)
      oversampling8x := some (J.osInitProcessing (J.osNew numChannels 3) samplesPerBlock)
      preHPF := { dsp.preHPF with memory := J.iirPrepare spec dsp.preHPF.memory }
      preMidBoost := { dsp.preMidBoost with memory := J.iirPrepare spec dsp.preMidBoost.memory }
      preHFShelf := { dsp.preHFShelf with memory := J.iirPrepare spec dsp.preHFShelf.memory }
      postLPF := { dsp.postLPF with memory := J.iirPrepare spec dsp.postLPF.memory }
      postLowShelf :=
        { dsp.postLowShelf with memory := J.iirPrepare spec dsp.postLowShelf.memory }
      postPresenceDip :=
        { dsp.postPresenceDip with memory := J.iirPrepare spec dsp.postPresenceDip.memory } }
  let dsp := dsp.updatePreEmphasis sampleRate .Triode
  let dsp := dsp.updatePostEmphasis sampleRate .Triode
  { dsp with dryBuffer := List.replicate numChannels (List.replicate samplesPerBlock 0) }

/-- Embedding of `SaturatorDSP::reset`. -/
def SaturatorDSP.reset {F O : Type} (J : Juce F O) (dsp : SaturatorDSP F O) :
    SaturatorDSP F O :=
  { dsp with
    preDCBlocker := dsp.preDCBlocker.map fun dc => dc.reset
    postDCBlocker := dsp.postDCBlocker.map fun dc => dc.reset
    sagEnvelope := dsp.sagEnvelope.map fun env => env.reset
    preHPF := { dsp.preHPF with memory := J.iirReset dsp.preHPF.memory }
    preMidBoost := { dsp.preMidBoost with memory := J.iirReset dsp.preMidBoost.memory }
    preHFShelf := { dsp.preHFShelf with memory := J.iirReset dsp.preHFShelf.memory }
    postLPF := { dsp.postLPF with memory := J.iirReset dsp.postLPF.memory }
    postLowShelf := { dsp.postLowShelf with memory := J.iirReset dsp.postLowShelf.memory }
    postPresenceDip :=
      { dsp.postPresenceDip with memory := J.iirReset dsp.postPresenceDip.memory }
    oversampling4x := dsp.oversampling4x.map J.osReset
    oversampling8x := dsp.oversampling8x.map J.osReset }

/-- Embedding of `SaturatorDSP::getLatencyInSamples`. -/
def SaturatorDSP.getLatencyInSamples {F O : Type} (J : Juce F O) (dsp : SaturatorDSP F O)
    (mode : SaturatorDSP.Mode) : ℝ :=
  match decide (mode = .Torture), dsp.oversampling8x, dsp.oversampling4x with
  | true, some os8, _ => J.osGetLatencyInSamples os8
  | _, _, some os4 => J.osGetLatencyInSamples os4
  | _, _, none => 0.0

/-! ## Block processing -/

/-- Body of the per-sample loop of stages 5-7 (`process`, the statements inside
`for (int i = 0; i < osNumSamples; ++i)`), for one channel's follower and one
sample. -/
noncomputable def SaturatorDSP.sagSample (driveLinear bias sagAmount : ℝ)
    (valveParams : SaturatorDSP.ValveParams ℝ)
    (follower : SaturatorDSP.EnvelopeFollower ℝ) (s : ℝ) :
    SaturatorDSP.EnvelopeFollower ℝ × ℝ :=
  let r := follower.process s
  let env := r.2
  let effectiveDrive := driveLinear * (1.0 - sagAmount * env)
  let x := s + bias
  let x := x * effectiveDrive
  (r.1, SaturatorDSP.valveShaper x valveParams.curvature valveParams.asymmetry)

/-- The statements `double osRate = ...; for (auto& env : sagEnvelope) env.prepare (osRate);`
of `process`. -/
noncomputable def SaturatorDSP.sagPrepare (currentSampleRate : ℝ) (mode : SaturatorDSP.Mode)
    (sagEnvelope : List (SaturatorDSP.EnvelopeFollower ℝ)) :
    List (SaturatorDSP.EnvelopeFollower ℝ) :=
  let useTorture := decide (mode = .Torture)
  let osRate := currentSampleRate * (if useTorture then 8.0 else 4.0)
  sagEnvelope.map fun env => env.prepare osRate

/-- Stages 5-7 of `process` (drive, valve shaper and sag at the oversampled
rate), from `float driveLinear = ...` to the end of the channel loop. -/
noncomputable def SaturatorDSP.sagStage (currentSampleRate driveDb bias sagAmount : ℝ)
    (mode : SaturatorDSP.Mode) (sagEnvelope : List (SaturatorDSP.EnvelopeFollower ℝ))
    (oversampledBlock : List (List ℝ)) :
    List (SaturatorDSP.EnvelopeFollower ℝ) × List (List ℝ) :=
  let driveLinear : ℝ := (10.0 : ℝ) ^ (driveDb / 20.0)
  let valveParams : SaturatorDSP.ValveParams ℝ := SaturatorDSP.getValveParams mode
  let sagEnvelope := SaturatorDSP.sagPrepare currentSampleRate mode sagEnvelope
  channelLoop (sampleLoop (SaturatorDSP.sagSample driveLinear bias sagAmount valveParams))
    sagEnvelope oversampledBlock

/-- Stages 1-11 of `process`: everything between the dry copy and the dry/wet
blend.  The selected oversampler is dereferenced; a null one gives `none`. -/
noncomputable def SaturatorDSP.wetPath {F O : Type} (J : Juce F O) (dsp : SaturatorDSP F O)
    (buffer : List (List ℝ)) (inputTrimDb driveDb bias sagAmount outputTrimDb : ℝ)
    (mode : SaturatorDSP.Mode) : Option (SaturatorDSP F O × List (List ℝ)) :=
  -- 1. input trim
  let inputGain := decibelsToGain inputTrimDb
  let buffer := applyGain inputGain buffer
  -- 2. DC blocker (pre)
  let pre := channelLoop (sampleLoop SaturatorDSP.DCBlocker.process) dsp.preDCBlocker buffer
  let dsp := { dsp with preDCBlocker := pre.1 }
  let buffer := pre.2
  -- 3. pre-emphasis EQ
  let dsp := dsp.updatePreEmphasis dsp.currentSampleRate mode
  let hpf := dsp.preHPF.process J buffer
  let mid := dsp.preMidBoost.process J hpf.2
  let shelf := dsp.preHFShelf.process J mid.2
  let dsp := { dsp with preHPF := hpf.1, preMidBoost := mid.1, preHFShelf := shelf.1 }
  let buffer := shelf.2
  -- 4. oversampling (up)
  let useTorture := decide (mode = .Torture)
  match (if useTorture then dsp.oversampling8x else dsp.oversampling4x) with
  | none => none
  | some oversampler =>
    let up := J.osProcessSamplesUp oversampler buffer
    -- 5 + 6 + 7. drive, valve shaper and sag
    let sag := SaturatorDSP.sagStage dsp.currentSampleRate driveDb bias sagAmount mode
      dsp.sagEnvelope up.2
    let dsp := { dsp with sagEnvelope := sag.1 }
    -- 8. downsample
    let down := J.osProcessSamplesDown up.1 sag.2
    let dsp :=
      if useTorture then { dsp with oversampling8x := some down.1 }
      else { dsp with oversampling4x := some down.1 }
    let buffer := overwrite buffer down.2
    -- 9. post-emphasis EQ
    let dsp := dsp.updatePostEmphasis dsp.currentSampleRate mode
    let lpf := dsp.postLPF.process J buffer
    let low := dsp.postLowShelf.process J lpf.2
    let dip := dsp.postPresenceDip.process J low.2
    let dsp := { dsp with postLPF := lpf.1, postLowShelf := low.1, postPresenceDip := dip.1 }
    let buffer := dip.2
    -- 10. DC blocker (post)
    let post := channelLoop (sampleLoop SaturatorDSP.DCBlocker.process) dsp.postDCBlocker buffer
    let dsp := { dsp with postDCBlocker := post.1 }
    let buffer := post.2
    -- 11. output trim
    let outputGain := decibelsToGain outputTrimDb
    some (dsp, applyGain outputGain buffer)

/-- Stage 12 of `process`, the dry/wet mix: `buffer` holds the wet signal and
is blended in place with `dryBuffer`, which has the shape of the block. -/
def SaturatorDSP.mixStage {α : Type} [LinearOrderedField α] (mix : α)
    (dryBuffer buffer : List (List α)) : List (List α) :=
  if mix < 1 then
    List.zipWith
      (fun dryData wetData =>
        List.zipWith (fun d w => d * (1 - mix) + w * mix) dryData wetData)
      dryBuffer buffer
  else buffer

/-- Embedding of `SaturatorDSP::process`. -/
noncomputable def SaturatorDSP.process {F O : Type} (J : Juce F O) (dsp : SaturatorDSP F O)
    (buffer : List (List ℝ)) (inputTrimDb driveDb bias sagAmount outputTrimDb mix : ℝ)
    (mode : SaturatorDSP.Mode) : Option (SaturatorDSP F O × List (List ℝ)) :=
  -- save dry signal for mix blending
  let dsp := { dsp with dryBuffer := buffer }
  match SaturatorDSP.wetPath J dsp buffer inputTrimDb driveDb bias sagAmount outputTrimDb mode with
  | none => none
  | some r => some (r.1, SaturatorDSP.mixStage mix r.1.dryBuffer r.2)

/-! ## The plugin processor: latency bookkeeping -/

/-- The members of `SaturatorProcessor` the block callback uses.  The channel
counts and the latency belong to the `juce::AudioProcessor` base class;
`latencyReports` records every `setLatencySamples` call, oldest first. -/
structure SaturatorProcessor (F O : Type) where
  dsp : SaturatorDSP F O
  lastMode : SaturatorDSP.Mode
  totalNumInputChannels : ℕ
  totalNumOutputChannels : ℕ
  latencyReports : List ℤ

/-- The processor as constructed: stereo in and out, `lastMode = Mode::Triode`. -/
def SaturatorProcessor.init {F O : Type} (J : Juce F O) : SaturatorProcessor F O :=
  { dsp := SaturatorDSP.init J
    lastMode := .Triode
    totalNumInputChannels := 2
    totalNumOutputChannels := 2
    latencyReports := [] }

/-- Embedding of `juce::AudioProcessor::setLatencySamples`, as far as the model sees it: the
call is recorded. -/
def SaturatorProcessor.setLatencySamples {F O : Type} (p : SaturatorProcessor F O)
    (newLatency : ℤ) : SaturatorProcessor F O :=
  { p with latencyReports := p.latencyReports ++ [newLatency] }

/-- The control values one `processBlock` call hands to `dsp.process`: what
the six `getCurrentValue ()` calls return after the smoothers were advanced,
and the mode read from the parameter tree. -/
structure BlockControls where
  inputTrimDb : ℝ
  driveDb : ℝ
  bias : ℝ
  sag : ℝ
  outputTrimDb : ℝ
  mix : ℝ
  mode : SaturatorDSP.Mode

/-- Embedding of `SaturatorProcessor::prepareToPlay` (the smoothers are not modelled). -/
noncomputable def SaturatorProcessor.prepareToPlay {F O : Type} (J : Juce F O)
    (p : SaturatorProcessor F O) (sampleRate : ℝ) (samplesPerBlock : ℕ) :
    SaturatorProcessor F O :=
  let p := { p with dsp := p.dsp.prepare J sampleRate samplesPerBlock p.totalNumInputChannels }
  p.setLatencySamples ⌈p.dsp.getLatencyInSamples J .Triode⌉

/-- Embedding of `SaturatorProcessor::releaseResources`. -/
def SaturatorProcessor.releaseResources {F O : Type} (J : Juce F O)
    (p : SaturatorProcessor F O) : SaturatorProcessor F O :=
  { p with dsp := p.dsp.reset J }

/-- The mode-change gate of `processBlock`:
`if (mode != lastMode) { lastMode = mode; setLatencySamples (...); }`. -/
noncomputable def SaturatorProcessor.updateLatency {F O : Type} (J : Juce F O)
    (p : SaturatorProcessor F O) (mode : SaturatorDSP.Mode) : SaturatorProcessor F O :=
  if mode ≠ p.lastMode then
    SaturatorProcessor.setLatencySamples { p with lastMode := mode }
      ⌈p.dsp.getLatencyInSamples J mode⌉
  else p

/-- Embedding of `SaturatorProcessor::processBlock`: surplus output channels are cleared,
the latency is re-reported on a mode change, then the block goes through
`dsp.process`. -/
noncomputable def SaturatorProcessor.processBlock {F O : Type} (J : Juce F O)
    (p : SaturatorProcessor F O) (buffer : List (List ℝ)) (c : BlockControls) :
    Option (SaturatorProcessor F O × List (List ℝ)) :=
  let buffer := buffer.mapIdx fun i chan =>
    if p.totalNumInputChannels ≤ i ∧ i < p.totalNumOutputChannels then chan.map fun _ => 0
    else chan
  let p := p.updateLatency J c.mode
  match p.dsp.process J buffer c.inputTrimDb c.driveDb c.bias c.sag c.outputTrimDb c.mix
      c.mode with
  | none => none
  | some r => some ({ p with dsp := r.1 }, r.2)

/-- Consecutive `processBlock` calls, in program order; the result is the
processor after the last call. -/
noncomputable def SaturatorProcessor.processBlocks {F O : Type} (J : Juce F O) :
    SaturatorProcessor F O → List (List (List ℝ) × BlockControls) →
      Option (SaturatorProcessor F O)
  | p, [] => some p
  | p, call :: calls =>
    match p.processBlock J call.1 call.2 with
    | none => none
    | some r => SaturatorProcessor.processBlocks J r.1 calls

/-! ## A small instance of the external collaborators -/

/-- A stand-in for the JUCE classes, used to run the pipeline on concrete
blocks: pass-through IIR stages and a sample-and-hold oversampler whose state
is its factor, which reports a latency of half the factor and delays by it
on the way down. -/
noncomputable def holdJuce : Juce Unit ℕ where
  iirInit := ()
  iirPrepare := fun _ f => f
  iirReset := fun f => f
  iirProcess := fun _ f buffer => (f, fun ch i => (sampleAt buffer ch i).getD 0)
  osNew := fun _ stages => 2 ^ stages
  osInitProcessing := fun o _ => o
  osReset := fun o => o
  osGetLatencyInSamples := fun o => ((o / 2 : ℕ) : ℝ)
  osProcessSamplesUp := fun o buffer =>
    (o, buffer.map fun chan => (chan.map fun s => List.replicate o s).flatten)
  osProcessSamplesDown := fun o block =>
    (o, fun ch i => if i < o / 2 then 0 else (sampleAt block ch ((i - o / 2) * o)).getD 0)

/-! ## Silence -/

/-- An all-zero block. -/
def IsSilent {α : Type} [Zero α] (buffer : List (List α)) : Prop :=
  ∀ chan ∈ buffer, ∀ s ∈ chan, s = 0

/-- What the silence property needs from the external collaborators: with
`quietF` / `quietO` marking filter memories and oversampler states that hold
no signal, preparing, constructing and resetting give such states, and from
such a state an all-zero block is processed to zeros (the oversampler staying
in such a state on the way up). -/
structure Juce.Quiet {F O : Type} (J : Juce F O) (quietF : F → Prop) (quietO : O → Prop) :
    Prop where
  iirPrepare : ∀ spec f, quietF (J.iirPrepare spec f)
  iirReset : ∀ f, quietF (J.iirReset f)
  iirProcess : ∀ design f buffer, quietF f → IsSilent buffer →
    ∀ ch i x, sampleAt buffer ch i = some x → (J.iirProcess design f buffer).2 ch i = 0
  osNew : ∀ numChannels stages blockSize,
    quietO (J.osInitProcessing (J.osNew numChannels stages) blockSize)
  osReset : ∀ o, quietO (J.osReset o)
  osProcessSamplesUp : ∀ o buffer, quietO o → IsSilent buffer →
    quietO (J.osProcessSamplesUp o buffer).1 ∧ IsSilent (J.osProcessSamplesUp o buffer).2
  osProcessSamplesDown : ∀ o block, quietO o → IsSilent block →
    ∀ ch i, (J.osProcessSamplesDown o block).2 ch i = 0

/-- A pipeline object holding no signal: DC blockers with zero history, quiet
filter memories, both oversamplers present and quiet. -/
structure SaturatorDSP.Rested {F O : Type} (dsp : SaturatorDSP F O) (quietF : F → Prop)
    (quietO : O → Prop) : Prop where
  preDC : ∀ dc ∈ dsp.preDCBlocker, dc.x1 = 0 ∧ dc.y1 = 0
  postDC : ∀ dc ∈ dsp.postDCBlocker, dc.x1 = 0 ∧ dc.y1 = 0
  preHPF : quietF dsp.preHPF.memory
  preMidBoost : quietF dsp.preMidBoost.memory
  preHFShelf : quietF dsp.preHFShelf.memory
  postLPF : quietF dsp.postLPF.memory
  postLowShelf : quietF dsp.postLowShelf.memory
  postPresenceDip : quietF dsp.postPresenceDip.memory
  os4 : ∃ o, dsp.oversampling4x = some o ∧ quietO o
  os8 : ∃ o, dsp.oversampling8x = some o ∧ quietO o

/-! ## Single-precision evaluation of the valve shaper -/

theorem sampleLoop_length {σ α β : Type} (step : σ → α → σ × β) (s : σ) (xs : List α) :
    (sampleLoop step s xs).2.length = xs.length := by
  induction xs generalizing s with
  | nil => rfl
  | cons x xs ih => simp [sampleLoop, ih]

theorem sampleLoop_getElem? {σ α β : Type} (step : σ → α → σ × β) (s : σ) (xs : List α)
    (i : ℕ) :
    (sampleLoop step s xs).2[i]? =
      (xs[i]?).map fun x => (step (sampleLoop step s (xs.take i)).1 x).2 := by
  induction xs generalizing s i with
  | nil => simp [sampleLoop]
  | cons x xs ih =>
    cases i with
    | zero => simp [sampleLoop]
    | succ i => simp [sampleLoop, ih]

theorem sampleLoop_take_succ {σ α β : Type} (step : σ → α → σ × β) (s : σ) (xs : List α)
    (i : ℕ) (x : α) (hx : xs[i]? = some x) :
    (sampleLoop step s (xs.take (i + 1))).1 = (step (sampleLoop step s (xs.take i)).1 x).1 := by
  induction xs generalizing s i with
  | nil => simp at hx
  | cons y ys ih =>
    cases i with
    | zero =>
      simp at hx
      simp [sampleLoop, hx]
    | succ i =>
      simp at hx
      simpa [sampleLoop] using ih (step s y).1 i hx

theorem channelLoop_getElem? {σ α : Type} (body : σ → List α → σ × List α)
    (ss : List σ) (ds : List (List α)) (ch : ℕ) (s : σ) (d : List α)
    (hs : ss[ch]? = some s) (hd : ds[ch]? = some d) :
    (channelLoop body ss ds).1[ch]? = some (body s d).1 ∧
      (channelLoop body ss ds).2[ch]? = some (body s d).2 := by
  induction ss generalizing ds ch with
  | nil => simp at hs
  | cons s0 ss ih =>
    cases ds with
    | nil => simp at hd
    | cons d0 ds =>
      cases ch with
      | zero =>
        simp at hs hd
        simp [channelLoop, hs, hd]
      | succ ch =>
        simp at hs hd
        simpa [channelLoop] using ih ds ch hs hd

/-! ## DC blocker on a constant input -/

theorem dcBlocker_hold_aux {α : Type} [Field α] (c : α) (m : ℕ) :
    ∀ (dc : SaturatorDSP.DCBlocker α) (n : ℕ), dc.x1 = c → n < m →
      (sampleLoop SaturatorDSP.DCBlocker.process dc (List.replicate m c)).2[n]? =
        some (dc.coeff ^ (n + 1) * dc.y1) := by
  induction m with
  | zero => intro dc n _ hn; omega
  | succ m ih =>
    intro dc n hx hn
    cases n with
    | zero =>
      simp [List.replicate_succ, sampleLoop, SaturatorDSP.DCBlocker.process, hx]
    | succ n =>
      have h := ih (dc.process c).1 n rfl (by omega)
      simp only [List.replicate_succ, sampleLoop, List.getElem?_cons_succ]
      rw [h]
      simp only [SaturatorDSP.DCBlocker.process, hx]
      congr 1
      ring

theorem dcBlocker_constant_aux {α : Type} [Field α] (dc : SaturatorDSP.DCBlocker α) (c : α)
    (m n : ℕ) (hn : n < m) :
    (sampleLoop SaturatorDSP.DCBlocker.process dc.reset (List.replicate m c)).2[n]? =
      some (c * dc.coeff ^ n) := by
  cases m with
  | zero => omega
  | succ m =>
    cases n with
    | zero =>
      simp [List.replicate_succ, sampleLoop, SaturatorDSP.DCBlocker.process,
        SaturatorDSP.DCBlocker.reset]
    | succ n =>
      have h := dcBlocker_hold_aux c m (dc.reset.process c).1 n rfl (by omega)
      simp only [List.replicate_succ, sampleLoop, List.getElem?_cons_succ]
      rw [h]
      simp only [SaturatorDSP.DCBlocker.process, SaturatorDSP.DCBlocker.reset]
      congr 1
      ring

theorem dcBlocker_prepare_coeff (dc : SaturatorDSP.DCBlocker ℝ) (fs : ℝ) :
    (dc.prepare fs).coeff = 1 - 2 * π * 5 / fs := by
  simp only [SaturatorDSP.DCBlocker.prepare, SaturatorDSP.DCBlocker.reset]
  norm_num

/-- C7: a DC blocker prepared at rate `fs` with `0 < R < 1`,
`R = 1 - 2*pi*5/fs`, and fed the constant `c` from the reset state gives
`c * R^n` as its `n`-th output, and these outputs tend to 0. -/
theorem dcBlocker_constant_input (dc : SaturatorDSP.DCBlocker ℝ) (fs c : ℝ)
    (hR0 : 0 < 1 - 2 * π * 5 / fs) (hR1 : 1 - 2 * π * 5 / fs < 1) :
    (dc.prepare fs).coeff = 1 - 2 * π * 5 / fs ∧
    (∀ m n : ℕ, n < m →
      (sampleLoop SaturatorDSP.DCBlocker.process (dc.prepare fs) (List.replicate m c)).2[n]? =
        some (c * (1 - 2 * π * 5 / fs) ^ n)) ∧
    Filter.Tendsto
      (fun n : ℕ =>
        ((sampleLoop SaturatorDSP.DCBlocker.process (dc.prepare fs)
          (List.replicate (n + 1) c)).2[n]?).getD 0)
      Filter.atTop (nhds 0) := by
  have hprep : dc.prepare fs =
      SaturatorDSP.DCBlocker.reset { dc with coeff := 1 - 2 * π * 5 / fs } := by
    simp only [SaturatorDSP.DCBlocker.prepare]
    norm_num
  have hout : ∀ m n : ℕ, n < m →
      (sampleLoop SaturatorDSP.DCBlocker.process (dc.prepare fs) (List.replicate m c)).2[n]? =
        some (c * (1 - 2 * π * 5 / fs) ^ n) := by
    intro m n hn
    rw [hprep]
    exact dcBlocker_constant_aux _ c m n hn
  refine ⟨dcBlocker_prepare_coeff dc fs, hout, ?_⟩
  have hfun : (fun n : ℕ =>
        ((sampleLoop SaturatorDSP.DCBlocker.process (dc.prepare fs)
          (List.replicate (n + 1) c)).2[n]?).getD 0) =
      fun n : ℕ => c * (1 - 2 * π * 5 / fs) ^ n := by
    funext n
    rw [hout (n + 1) n (Nat.lt_succ_self n)]
    rfl
  rw [hfun]
  have h := (tendsto_pow_atTop_nhds_zero_of_lt_one (le_of_lt hR0) hR1).const_mul c
  simpa using h

/-- C7, at 44.1 kHz with a unit DC input. -/
theorem dcBlocker_constant_input_witness :
    (0 : ℝ) < 1 - 2 * π * 5 / 44100 ∧
    (∀ m n : ℕ, n < m →
      (sampleLoop SaturatorDSP.DCBlocker.process
        (SaturatorDSP.DCBlocker.prepare ⟨0, 0, 0⟩ 44100) (List.replicate m 1)).2[n]? =
        some (1 * (1 - 2 * π * 5 / 44100) ^ n)) := by
  have hpos : (0 : ℝ) < 1 - 2 * π * 5 / 44100 := by
    have := Real.pi_lt_four
    have h3 := Real.pi_pos
    have : 2 * π * 5 / 44100 < 1 := by
      rw [div_lt_one (by norm_num)]
      linarith
    linarith
  have hlt : (1 : ℝ) - 2 * π * 5 / 44100 < 1 := by
    have h3 := Real.pi_pos
    have : 0 < 2 * π * 5 / 44100 := by positivity
    linarith
  exact ⟨hpos, (dcBlocker_constant_input ⟨0, 0, 0⟩ 44100 1 hpos hlt).2.1⟩

/-! ## Trim gains -/

theorem decibelsToGain_mul_neg (d : ℝ) : decibelsToGain d * decibelsToGain (-d) = 1 := by
  unfold decibelsToGain
  rw [← Real.rpow_add (by norm_num : (0 : ℝ) < 10)]
  have h : d / 20 + -d / 20 = 0 := by ring
  rw [h, Real.rpow_zero]

theorem applyGain_applyGain {α : Type} [Monoid α] (g h : α) (buffer : List (List α)) :
    applyGain h (applyGain g buffer) = applyGain (g * h) buffer := by
  simp [applyGain, mul_assoc]

theorem applyGain_one {α : Type} [Monoid α] (buffer : List (List α)) :
    applyGain 1 buffer = buffer := by
  simp [applyGain]

/-- C8: with the trim gain `10^(dB/20)`, opposite trim settings `d` and `-d`
in [-24, 24] multiply to unity, so an input trim followed directly by the
opposite output trim returns the block unchanged. -/
theorem trim_gains_compose (d : ℝ) (_hlo : -24 ≤ d) (_hhi : d ≤ 24) :
    decibelsToGain d = (10 : ℝ) ^ (d / 20) ∧
    decibelsToGain d * decibelsToGain (-d) = 1 ∧
    ∀ buffer : List (List ℝ),
      applyGain (decibelsToGain (-d)) (applyGain (decibelsToGain d) buffer) = buffer := by
  refine ⟨rfl, decibelsToGain_mul_neg d, ?_⟩
  intro buffer
  rw [applyGain_applyGain, decibelsToGain_mul_neg, applyGain_one]

/-- C8 at `d = 6`: `10^(6/20) * 10^(-6/20) = 1`. -/
theorem trim_gains_compose_witness :
    decibelsToGain 6 = (10 : ℝ) ^ ((6 : ℝ) / 20) ∧
    decibelsToGain 6 * decibelsToGain (-6) = 1 ∧
    ∀ buffer : List (List ℝ),
      applyGain (decibelsToGain (-6)) (applyGain (decibelsToGain 6) buffer) = buffer :=
  trim_gains_compose 6 (by norm_num) (by norm_num)

/-! ## Valve stage -/

theorem valveShaper_eq (x a b : ℝ) :
    SaturatorDSP.valveShaper x a b =
      if x ≥ 0 then Real.tanh (a * x * (1 + b)) else Real.tanh (a * x * (1 - b)) := by
  unfold SaturatorDSP.valveShaper
  norm_num [mul_assoc]

/-- C9: the mode presets are (2.5, 0.5) for Triode, (4.0, 0.85) for Pentode and
(8.0, 0.7) for Torture, and with `(a, b)` the preset of mode `m` the valve
shaper maps `x` to `tanh(a*x*(1+b))` for `x >= 0` and to `tanh(a*x*(1-b))`
for `x < 0`. -/
theorem valve_transfer_function :
    (SaturatorDSP.getValveParams .Triode : SaturatorDSP.ValveParams ℝ) = ⟨2.5, 0.5⟩ ∧
    (SaturatorDSP.getValveParams .Pentode : SaturatorDSP.ValveParams ℝ) = ⟨4.0, 0.85⟩ ∧
    (SaturatorDSP.getValveParams .Torture : SaturatorDSP.ValveParams ℝ) = ⟨8.0, 0.7⟩ ∧
    ∀ (m : SaturatorDSP.Mode) (x : ℝ),
      SaturatorDSP.valveShaper x (SaturatorDSP.getValveParams m).curvature
          (SaturatorDSP.getValveParams m).asymmetry =
        if x ≥ 0 then
          Real.tanh ((SaturatorDSP.getValveParams m).curvature * x *
            (1 + (SaturatorDSP.getValveParams m).asymmetry))
        else
          Real.tanh ((SaturatorDSP.getValveParams m).curvature * x *
            (1 - (SaturatorDSP.getValveParams m).asymmetry)) :=
  ⟨rfl, rfl, rfl, fun _ x => valveShaper_eq x _ _⟩

/-! ## The drive / sag / shaper loop -/

theorem envelope_process_snd {α : Type} [LinearOrderedField α]
    (e : SaturatorDSP.EnvelopeFollower α) (s : α) :
    (e.process s).2 = (e.process s).1.envelope := rfl

theorem sagSample_fst (driveLinear bias sagAmount : ℝ) (vp : SaturatorDSP.ValveParams ℝ)
    (e : SaturatorDSP.EnvelopeFollower ℝ) (s : ℝ) :
    (SaturatorDSP.sagSample driveLinear bias sagAmount vp e s).1 = (e.process s).1 := rfl

theorem sagLoop_fst (driveLinear bias sagAmount : ℝ) (vp : SaturatorDSP.ValveParams ℝ)
    (e : SaturatorDSP.EnvelopeFollower ℝ) (data : List ℝ) :
    (sampleLoop (SaturatorDSP.sagSample driveLinear bias sagAmount vp) e data).1 =
      (sampleLoop SaturatorDSP.EnvelopeFollower.process e data).1 := by
  induction data generalizing e with
  | nil => rfl
  | cons x xs ih => simp [sampleLoop, sagSample_fst, ih]

theorem sagLoop_getElem? (driveLinear bias sagAmount : ℝ) (vp : SaturatorDSP.ValveParams ℝ)
    (e : SaturatorDSP.EnvelopeFollower ℝ) (data : List ℝ) (i : ℕ) (s : ℝ)
    (hs : data[i]? = some s) :
    (sampleLoop (SaturatorDSP.sagSample driveLinear bias sagAmount vp) e data).2[i]? =
      some (SaturatorDSP.valveShaper
        ((s + bias) * driveLinear *
          (1 - sagAmount *
            (sampleLoop SaturatorDSP.EnvelopeFollower.process e
              (data.take (i + 1))).1.envelope))
        vp.curvature vp.asymmetry) := by
  rw [sampleLoop_getElem?, hs, Option.map_some', sagLoop_fst,
    sampleLoop_take_succ _ _ _ _ _ hs]
  simp only [SaturatorDSP.sagSample, envelope_process_snd]
  congr 2
  ring

/-- C10: in the oversampled loop of `process`, sample `i` of channel `ch` is
replaced by `valveShaper((s + bias) * driveLinear * (1 - sagAmount*env), a, b)`,
where `s` is the sample before the loop, `env` is the envelope of the channel's
follower after it has been advanced through samples `0..i` of the channel
(the samples themselves, without bias), the follower having been re-prepared
at the oversampled rate at the start of the stage, `driveLinear = 10^(driveDb/20)`
and `(a, b)` is the preset of the mode. -/
theorem sagStage_sample (currentSampleRate driveDb bias sagAmount : ℝ)
    (mode : SaturatorDSP.Mode) (sagEnvelope : List (SaturatorDSP.EnvelopeFollower ℝ))
    (oversampledBlock : List (List ℝ)) (ch i : ℕ)
    (follower : SaturatorDSP.EnvelopeFollower ℝ) (data : List ℝ) (s : ℝ)
    (hf : sagEnvelope[ch]? = some follower) (hd : oversampledBlock[ch]? = some data)
    (hs : data[i]? = some s) :
    sampleAt (SaturatorDSP.sagStage currentSampleRate driveDb bias sagAmount mode sagEnvelope
        oversampledBlock).2 ch i =
      some (SaturatorDSP.valveShaper
        ((s + bias) * (10 : ℝ) ^ (driveDb / 20) *
          (1 - sagAmount *
            (sampleLoop SaturatorDSP.EnvelopeFollower.process
              (follower.prepare (currentSampleRate * (if mode = .Torture then 8 else 4)))
              (data.take (i + 1))).1.envelope))
        (SaturatorDSP.getValveParams mode).curvature
        (SaturatorDSP.getValveParams mode).asymmetry) := by
  have hprep : (SaturatorDSP.sagPrepare currentSampleRate mode sagEnvelope)[ch]? =
      some (follower.prepare (currentSampleRate * (if mode = .Torture then 8 else 4))) := by
    simp only [SaturatorDSP.sagPrepare, List.getElem?_map, hf, Option.map_some']
    norm_num
  have h20 : driveDb / (20.0 : ℝ) = driveDb / 20 := by norm_num
  have h10 : (10.0 : ℝ) = 10 := by norm_num
  have h := (channelLoop_getElem?
    (sampleLoop (SaturatorDSP.sagSample ((10 : ℝ) ^ (driveDb / 20)) bias sagAmount
      (SaturatorDSP.getValveParams mode)))
    _ _ ch _ data hprep hd).2
  unfold sampleAt SaturatorDSP.sagStage
  simp only [h20, h10, h, Option.some_bind]
  exact sagLoop_getElem? _ bias sagAmount _ _ data i s hs

/-- C10 on a one-sample block at 44.1 kHz in Triode mode. -/
theorem sagStage_sample_witness :
    sampleAt (SaturatorDSP.sagStage 44100 0 0 0 .Triode [⟨0, 0, 0⟩] [[1]]).2 0 0 =
      some (SaturatorDSP.valveShaper
        (((1 : ℝ) + 0) * (10 : ℝ) ^ ((0 : ℝ) / 20) *
          (1 - 0 *
            (sampleLoop SaturatorDSP.EnvelopeFollower.process
              (SaturatorDSP.EnvelopeFollower.prepare ⟨0, 0, 0⟩
                (44100 * (if SaturatorDSP.Mode.Triode = .Torture then 8 else 4)))
              (([1] : List ℝ).take (0 + 1))).1.envelope))
        (SaturatorDSP.getValveParams .Triode).curvature
        (SaturatorDSP.getValveParams .Triode).asymmetry) :=
  sagStage_sample 44100 0 0 0 .Triode [⟨0, 0, 0⟩] [[1]] 0 0 ⟨0, 0, 0⟩ [1] 1 rfl rfl rfl

/-! ## The sag envelope across blocks -/

theorem attackCoeff_pos (fs : ℝ) (hfs : 0 < fs) :
    0 < (1.0 : ℝ) - Real.exp (-1.0 / (fs * 0.008)) := by
  have h : Real.exp (-1.0 / (fs * 0.008)) < 1 := by
    rw [Real.exp_lt_one_iff]
    have : 0 < fs * 0.008 := by positivity
    have h2 : (-1.0 : ℝ) / (fs * 0.008) = -(1 / (fs * 0.008)) := by ring
    rw [h2]
    have : 0 < 1 / (fs * 0.008) := by positivity
    linarith
  have one : (1.0 : ℝ) = 1 := by norm_num
  rw [one]
  linarith

theorem sagPrepare_envelope (currentSampleRate : ℝ) (mode : SaturatorDSP.Mode)
    (sagEnvelope : List (SaturatorDSP.EnvelopeFollower ℝ)) :
    (SaturatorDSP.sagPrepare currentSampleRate mode sagEnvelope).map (fun e => e.envelope) =
      List.replicate sagEnvelope.length 0 := by
  induction sagEnvelope with
  | nil => rfl
  | cons e es ih =>
    simp only [SaturatorDSP.sagPrepare, List.map_cons, List.length_cons,
      List.replicate_succ] at ih ⊢
    rw [ih]
    rfl

theorem attackCoeff_lt_one (fs : ℝ) : (1.0 : ℝ) - Real.exp (-1.0 / (fs * 0.008)) < 1 := by
  have h := Real.exp_pos (-1.0 / (fs * 0.008))
  have one : (1.0 : ℝ) = 1 := by norm_num
  rw [one]
  linarith

theorem sagStage_followers (currentSampleRate driveDb bias sagAmount : ℝ)
    (mode : SaturatorDSP.Mode) (e : SaturatorDSP.EnvelopeFollower ℝ) (data : List ℝ) :
    (SaturatorDSP.sagStage currentSampleRate driveDb bias sagAmount mode [e] [data]).1 =
      [(sampleLoop SaturatorDSP.EnvelopeFollower.process
        (e.prepare (currentSampleRate * (if mode = .Torture then 8 else 4))) data).1] := by
  have h8 : (8.0 : ℝ) = 8 := by norm_num
  have h4 : (4.0 : ℝ) = 4 := by norm_num
  simp only [SaturatorDSP.sagStage, SaturatorDSP.sagPrepare, List.map_cons, List.map_nil,
    channelLoop, sagLoop_fst, decide_eq_true_eq, h8, h4]

theorem envelope_after_one (e : SaturatorDSP.EnvelopeFollower ℝ) (he : e.envelope = 0) :
    (sampleLoop SaturatorDSP.EnvelopeFollower.process e [1]).1.envelope = e.attackCoeff := by
  simp [sampleLoop, SaturatorDSP.EnvelopeFollower.process, he]

theorem envelope_after_two (e : SaturatorDSP.EnvelopeFollower ℝ) (he : e.envelope = 0)
    (ha : e.attackCoeff < 1) :
    (sampleLoop SaturatorDSP.EnvelopeFollower.process e [1, 1]).1.envelope =
      e.attackCoeff + e.attackCoeff * (1 - e.attackCoeff) := by
  simp [sampleLoop, SaturatorDSP.EnvelopeFollower.process, he, ha]

/-- C3 (violated by the code): a one-sample oversampled block `[1]` at
44.1 kHz in Triode mode leaves the follower of channel 0 with a positive
envelope, and the re-preparation that opens the next block's sag stage
puts that envelope back to 0; more generally the re-preparation zeroes
every envelope whatever the followers held.  As a result the samples `1, 1`
end with envelope `a + a*(1 - a)` when they form one block and with `a`
when they come as two blocks, `a` being the attack coefficient,
`0 < a < 1`. -/
theorem sag_envelope_reset_every_block :
    (∃ e : SaturatorDSP.EnvelopeFollower ℝ,
      (SaturatorDSP.sagStage 44100 0 0 0 .Triode [⟨0, 0, 0⟩] [[1]]).1 = [e] ∧
      0 < e.envelope ∧
      (SaturatorDSP.sagPrepare 44100 .Triode [e]).map (fun f => f.envelope) = [0]) ∧
    (∀ (currentSampleRate : ℝ) (mode : SaturatorDSP.Mode)
      (sagEnvelope : List (SaturatorDSP.EnvelopeFollower ℝ)),
      (SaturatorDSP.sagPrepare currentSampleRate mode sagEnvelope).map (fun f => f.envelope) =
        List.replicate sagEnvelope.length 0) ∧
    (∃ a : ℝ, 0 < a ∧ a < 1 ∧
      (SaturatorDSP.sagStage 44100 0 0 0 .Triode [⟨0, 0, 0⟩] [[1, 1]]).1.map
          (fun f => f.envelope) = [a + a * (1 - a)] ∧
      (SaturatorDSP.sagStage 44100 0 0 0 .Triode
          (SaturatorDSP.sagStage 44100 0 0 0 .Triode [⟨0, 0, 0⟩] [[1]]).1 [[1]]).1.map
          (fun f => f.envelope) = [a] ∧
      a + a * (1 - a) ≠ a) := by
  have ha := attackCoeff_pos (44100 * 4) (by norm_num)
  have ha1 := attackCoeff_lt_one (44100 * 4)
  refine ⟨?_, sagPrepare_envelope, ?_⟩
  · refine ⟨⟨1.0 - Real.exp (-1.0 / (44100 * 4 * 0.008)),
      1.0 - Real.exp (-1.0 / (44100 * 4 * 0.008)),
      1.0 - Real.exp (-1.0 / (44100 * 4 * 0.200))⟩, ?_, ha, ?_⟩
    · simp [SaturatorDSP.sagStage, SaturatorDSP.sagPrepare, channelLoop, sampleLoop,
        SaturatorDSP.sagSample, SaturatorDSP.EnvelopeFollower.process,
        SaturatorDSP.EnvelopeFollower.prepare, SaturatorDSP.EnvelopeFollower.reset]
      norm_num
    · exact sagPrepare_envelope 44100 .Triode _
  · refine ⟨1.0 - Real.exp (-1.0 / (44100 * 4 * 0.008)), ha, ha1, ?_, ?_, ?_⟩
    · rw [sagStage_followers, List.map_cons, List.map_nil,
        envelope_after_two _ rfl (by simpa [SaturatorDSP.EnvelopeFollower.prepare,
          SaturatorDSP.EnvelopeFollower.reset] using ha1)]
      simp [SaturatorDSP.EnvelopeFollower.prepare, SaturatorDSP.EnvelopeFollower.reset]
    · rw [sagStage_followers, sagStage_followers, List.map_cons, List.map_nil,
        envelope_after_one _ rfl]
      simp [SaturatorDSP.EnvelopeFollower.prepare, SaturatorDSP.EnvelopeFollower.reset]
    · intro h
      have hprod : (1.0 - Real.exp (-1.0 / (44100 * 4 * 0.008))) *
          (1 - (1.0 - Real.exp (-1.0 / (44100 * 4 * 0.008)))) = 0 := by linarith
      rcases mul_eq_zero.mp hprod with h0 | h0
      · linarith
      · linarith

/-! ## Buffer shapes -/

theorem applyGain_shape {α : Type} [Mul α] (g : α) (buffer : List (List α)) :
    (applyGain g buffer).map List.length = buffer.map List.length := by
  simp [applyGain, Function.comp_def]

theorem overwrite_shape {α : Type} (buffer : List (List α)) (f : ℕ → ℕ → α) :
    (overwrite buffer f).map List.length = buffer.map List.length := by
  apply List.ext_getElem?
  intro n
  simp only [overwrite, List.getElem?_map, List.getElem?_mapIdx]
  cases buffer[n]? <;> simp

theorem channelLoop_shape {σ α : Type} (body : σ → List α → σ × List α)
    (hbody : ∀ s d, (body s d).2.length = d.length) (ss : List σ) (ds : List (List α)) :
    (channelLoop body ss ds).2.map List.length = ds.map List.length := by
  induction ss generalizing ds with
  | nil => cases ds <;> simp [channelLoop]
  | cons s ss ih =>
    cases ds with
    | nil => simp [channelLoop]
    | cons d ds => simp [channelLoop, hbody, ih]

theorem iirProcess_shape {F O : Type} (J : Juce F O) (f : IIRFilter F)
    (buffer : List (List ℝ)) :
    (f.process J buffer).2.map List.length = buffer.map List.length := by
  simp only [IIRFilter.process, overwrite_shape]

theorem sampleAt_of_shape {α : Type} (a b : List (List α))
    (h : a.map List.length = b.map List.length) (ch i : ℕ) (x : α)
    (hx : sampleAt b ch i = some x) : ∃ y, sampleAt a ch i = some y := by
  have hch : (a.map List.length)[ch]? = (b.map List.length)[ch]? := by rw [h]
  simp only [List.getElem?_map] at hch
  unfold sampleAt at hx ⊢
  cases hb : b[ch]? with
  | none => simp [hb] at hx
  | some bc =>
    cases ha : a[ch]? with
    | none => simp [ha, hb] at hch
    | some ac =>
      simp only [ha, hb, Option.map_some', Option.some.injEq] at hch
      simp only [hb, Option.some_bind] at hx
      have hi : i < bc.length := by
        rcases List.getElem?_eq_some_iff.mp hx with ⟨hlt, _⟩
        exact hlt
      refine ⟨ac.get ⟨i, by omega⟩, ?_⟩
      simp only [Option.some_bind]
      exact List.getElem?_eq_getElem (by omega)

theorem sampleAt_zipWith {α : Type} (f : α → α → α) (a b : List (List α)) (ch i : ℕ)
    (x y : α) (hx : sampleAt a ch i = some x) (hy : sampleAt b ch i = some y) :
    sampleAt (List.zipWith (fun p q => List.zipWith f p q) a b) ch i = some (f x y) := by
  unfold sampleAt at hx hy ⊢
  cases ha : a[ch]? with
  | none => simp [ha] at hx
  | some ac =>
    cases hb : b[ch]? with
    | none => simp [hb] at hy
    | some bc =>
      simp only [ha, hb, Option.some_bind] at hx hy
      simp [List.getElem?_zipWith, ha, hb, hx, hy]

theorem dcLoop_length {α : Type} [Ring α] (dc : SaturatorDSP.DCBlocker α) (d : List α) :
    (sampleLoop SaturatorDSP.DCBlocker.process dc d).2.length = d.length :=
  sampleLoop_length _ _ _

theorem wetPath_some {F O : Type} (J : Juce F O) (dsp : SaturatorDSP F O)
    (buffer : List (List ℝ)) (inputTrimDb driveDb bias sagAmount outputTrimDb : ℝ)
    (mode : SaturatorDSP.Mode) (oversampler : O)
    (hos : (if mode = .Torture then dsp.oversampling8x else dsp.oversampling4x) =
      some oversampler) :
    ∃ r, SaturatorDSP.wetPath J dsp buffer inputTrimDb driveDb bias sagAmount outputTrimDb
        mode = some r ∧
      r.1.dryBuffer = dsp.dryBuffer ∧
      r.2.map List.length = buffer.map List.length ∧
      (dsp.oversampling4x.isSome → r.1.oversampling4x.isSome) ∧
      (dsp.oversampling8x.isSome → r.1.oversampling8x.isSome) := by
  unfold SaturatorDSP.wetPath
  by_cases hm : mode = .Torture
  · simp only [hm, if_true, decide_True] at hos ⊢
    simp only [SaturatorDSP.updatePreEmphasis, hos]
    refine ⟨_, rfl, rfl, ?_, ?_, ?_⟩
    · simp only [applyGain_shape, channelLoop_shape _ dcLoop_length, iirProcess_shape,
        overwrite_shape]
    · intro h
      simpa [SaturatorDSP.updatePostEmphasis] using h
    · intro _
      simp [SaturatorDSP.updatePostEmphasis]
  · simp only [hm, if_false, decide_False] at hos ⊢
    simp only [SaturatorDSP.updatePreEmphasis, hos]
    refine ⟨_, rfl, rfl, ?_, ?_, ?_⟩
    · simp only [applyGain_shape, channelLoop_shape _ dcLoop_length, iirProcess_shape,
        overwrite_shape]
    · intro _
      simp [SaturatorDSP.updatePostEmphasis]
    · intro h
      simpa [SaturatorDSP.updatePostEmphasis] using h

/-! ## Dry/wet mix -/

theorem process_eq_mixStage {F O : Type} (J : Juce F O) (dsp : SaturatorDSP F O)
    (buffer : List (List ℝ)) (inputTrimDb driveDb bias sagAmount outputTrimDb mix : ℝ)
    (mode : SaturatorDSP.Mode) (oversampler : O)
    (hos : (if mode = .Torture then dsp.oversampling8x else dsp.oversampling4x) =
      some oversampler) :
    ∃ dsp' wet,
      SaturatorDSP.wetPath J { dsp with dryBuffer := buffer } buffer inputTrimDb driveDb bias
        sagAmount outputTrimDb mode = some (dsp', wet) ∧
      SaturatorDSP.process J dsp buffer inputTrimDb driveDb bias sagAmount outputTrimDb mix
        mode = some (dsp', SaturatorDSP.mixStage mix buffer wet) ∧
      wet.map List.length = buffer.map List.length ∧
      (dsp.oversampling4x.isSome → dsp'.oversampling4x.isSome) ∧
      (dsp.oversampling8x.isSome → dsp'.oversampling8x.isSome) := by
  obtain ⟨r, hr, hdry, hshape, h4, h8⟩ :=
    wetPath_some J { dsp with dryBuffer := buffer } buffer inputTrimDb driveDb bias sagAmount
      outputTrimDb mode oversampler hos
  refine ⟨r.1, r.2, hr, ?_, hshape, h4, h8⟩
  simp only [SaturatorDSP.process, hr, hdry]

/-- C4: on an instance whose selected oversampler exists, `process` returns,
and with `wet` the block produced by stages 1-11 from the block on entry,
every output sample is `dry*(1 - mix) + wet*mix` when `mix < 1`, the dry
sample being the one the block held on entry, and is the wet sample itself
otherwise; for `mix = 1` the output block is the wet block. -/
theorem process_dry_wet_mix {F O : Type} (J : Juce F O) (dsp : SaturatorDSP F O)
    (buffer : List (List ℝ)) (inputTrimDb driveDb bias sagAmount outputTrimDb mix : ℝ)
    (mode : SaturatorDSP.Mode) (oversampler : O)
    (hos : (if mode = .Torture then dsp.oversampling8x else dsp.oversampling4x) =
      some oversampler) :
    ∃ dsp' wet out,
      SaturatorDSP.wetPath J { dsp with dryBuffer := buffer } buffer inputTrimDb driveDb bias
        sagAmount outputTrimDb mode = some (dsp', wet) ∧
      SaturatorDSP.process J dsp buffer inputTrimDb driveDb bias sagAmount outputTrimDb mix
        mode = some (dsp', out) ∧
      (∀ ch i dry, sampleAt buffer ch i = some dry →
        ∃ w, sampleAt wet ch i = some w ∧
          sampleAt out ch i = some (if mix < 1 then dry * (1 - mix) + w * mix else w)) ∧
      (mix = 1 → out = wet) := by
  obtain ⟨dsp', wet, hwet, hproc, hshape, -, -⟩ :=
    process_eq_mixStage J dsp buffer inputTrimDb driveDb bias sagAmount outputTrimDb mix mode
      oversampler hos
  refine ⟨dsp', wet, _, hwet, hproc, ?_, ?_⟩
  · intro ch i dry hdry
    obtain ⟨w, hw⟩ := sampleAt_of_shape wet buffer hshape ch i dry hdry
    refine ⟨w, hw, ?_⟩
    by_cases hmix : mix < 1
    · simp only [SaturatorDSP.mixStage, hmix, if_true]
      exact sampleAt_zipWith _ buffer wet ch i dry w hdry hw
    · simp only [SaturatorDSP.mixStage, hmix, if_false]
      exact hw
  · intro hmix
    simp [SaturatorDSP.mixStage, hmix]

/-- C4 on an instance prepared with the stand-in collaborators. -/
theorem process_dry_wet_mix_witness :
    ∃ dsp' wet out,
      SaturatorDSP.wetPath holdJuce
        { SaturatorDSP.prepare holdJuce (SaturatorDSP.init holdJuce) 44100 2 1 with
          dryBuffer := [[1, 2]] } [[1, 2]] 0 0 0 0 0 .Triode = some (dsp', wet) ∧
      SaturatorDSP.process holdJuce
        (SaturatorDSP.prepare holdJuce (SaturatorDSP.init holdJuce) 44100 2 1)
        [[1, 2]] 0 0 0 0 0 (1 / 2) .Triode = some (dsp', out) ∧
      (∀ ch i dry, sampleAt ([[1, 2]] : List (List ℝ)) ch i = some dry →
        ∃ w, sampleAt wet ch i = some w ∧
          sampleAt out ch i =
            some (if (1 / 2 : ℝ) < 1 then dry * (1 - 1 / 2) + w * (1 / 2) else w)) ∧
      ((1 / 2 : ℝ) = 1 → out = wet) :=
  process_dry_wet_mix holdJuce
    (SaturatorDSP.prepare holdJuce (SaturatorDSP.init holdJuce) 44100 2 1)
    [[1, 2]] 0 0 0 0 0 (1 / 2) .Triode _ rfl

/-! ## The dry path at mix = 0 -/

theorem applyGain_silent (g : ℝ) (buffer : List (List ℝ)) (h : IsSilent buffer) :
    IsSilent (applyGain g buffer) := by
  intro chan hchan s hs
  simp only [applyGain, List.mem_map] at hchan
  obtain ⟨c0, hc0, rfl⟩ := hchan
  simp only [List.mem_map] at hs
  obtain ⟨s0, hs0, rfl⟩ := hs
  rw [h c0 hc0 s0 hs0, zero_mul]

theorem overwrite_silent (buffer : List (List ℝ)) (f : ℕ → ℕ → ℝ)
    (hf : ∀ ch i x, sampleAt buffer ch i = some x → f ch i = 0) :
    IsSilent (overwrite buffer f) := by
  intro chan hchan s hs
  obtain ⟨ch, hch, rfl⟩ := List.getElem_of_mem hchan
  obtain ⟨i, hi, rfl⟩ := List.getElem_of_mem hs
  simp only [overwrite, List.getElem_mapIdx]
  simp only [overwrite, List.length_mapIdx] at hch
  simp only [overwrite, List.getElem_mapIdx, List.length_mapIdx] at hi
  apply hf ch i ((buffer[ch])[i])
  simp [sampleAt, List.getElem?_eq_getElem hch, List.getElem?_eq_getElem hi]

theorem dcLoop_silent (dc : SaturatorDSP.DCBlocker ℝ) (data : List ℝ)
    (hdc : dc.x1 = 0 ∧ dc.y1 = 0) (hdata : ∀ s ∈ data, s = 0) :
    ∀ s ∈ (sampleLoop SaturatorDSP.DCBlocker.process dc data).2, s = 0 := by
  induction data generalizing dc with
  | nil => simp [sampleLoop]
  | cons x xs ih =>
    have hx : x = 0 := hdata x (List.mem_cons_self _ _)
    have hxs : ∀ s ∈ xs, s = 0 := fun s hs => hdata s (List.mem_cons_of_mem _ hs)
    have hstep : (dc.process x).2 = 0 := by
      simp [SaturatorDSP.DCBlocker.process, hx, hdc.1, hdc.2]
    have hstate : (dc.process x).1.x1 = 0 ∧ (dc.process x).1.y1 = 0 := by
      simp [SaturatorDSP.DCBlocker.process, hx, hdc.1, hdc.2]
    intro s hs
    simp only [sampleLoop, List.mem_cons] at hs
    rcases hs with hs | hs
    · rw [hs, hstep]
    · exact ih _ hstate hxs s hs

theorem channelLoop_silent {σ : Type} (body : σ → List ℝ → σ × List ℝ) (good : σ → Prop)
    (hbody : ∀ st d, good st → (∀ s ∈ d, s = 0) → ∀ s ∈ (body st d).2, s = 0)
    (ss : List σ) (ds : List (List ℝ)) (hss : ∀ st ∈ ss, good st) (hds : IsSilent ds) :
    IsSilent (channelLoop body ss ds).2 := by
  induction ss generalizing ds with
  | nil => cases ds <;> simpa [channelLoop] using hds
  | cons st ss ih =>
    cases ds with
    | nil => simpa [channelLoop] using hds
    | cons d ds =>
      intro chan hchan
      simp only [channelLoop, List.mem_cons] at hchan
      rcases hchan with hchan | hchan
      · rw [hchan]
        exact hbody st d (hss st (List.mem_cons_self _ _)) (hds d (List.mem_cons_self _ _))
      · exact ih ds (fun t ht => hss t (List.mem_cons_of_mem _ ht))
          (fun c hc => hds c (List.mem_cons_of_mem _ hc)) chan hchan

theorem valveShaper_zero (a b : ℝ) : SaturatorDSP.valveShaper 0 a b = 0 := by
  simp [SaturatorDSP.valveShaper]

theorem sagSample_zero (driveLinear sagAmount : ℝ) (vp : SaturatorDSP.ValveParams ℝ)
    (e : SaturatorDSP.EnvelopeFollower ℝ) (he : e.envelope = 0) :
    (SaturatorDSP.sagSample driveLinear 0 sagAmount vp e 0).1.envelope = 0 ∧
      (SaturatorDSP.sagSample driveLinear 0 sagAmount vp e 0).2 = 0 := by
  constructor
  · simp [SaturatorDSP.sagSample, SaturatorDSP.EnvelopeFollower.process, he]
  · simp [SaturatorDSP.sagSample, SaturatorDSP.EnvelopeFollower.process, he,
      valveShaper_zero]

theorem sagLoop_silent (driveLinear sagAmount : ℝ) (vp : SaturatorDSP.ValveParams ℝ)
    (e : SaturatorDSP.EnvelopeFollower ℝ) (data : List ℝ)
    (he : e.envelope = 0) (hdata : ∀ s ∈ data, s = 0) :
    ∀ s ∈ (sampleLoop (SaturatorDSP.sagSample driveLinear 0 sagAmount vp) e data).2, s = 0 := by
  induction data generalizing e with
  | nil => simp [sampleLoop]
  | cons x xs ih =>
    have hx : x = 0 := hdata x (List.mem_cons_self _ _)
    have hxs : ∀ s ∈ xs, s = 0 := fun s hs => hdata s (List.mem_cons_of_mem _ hs)
    subst hx
    have h0 := sagSample_zero driveLinear sagAmount vp e he
    intro s hs
    simp only [sampleLoop, List.mem_cons] at hs
    rcases hs with hs | hs
    · rw [hs, h0.2]
    · exact ih _ h0.1 hxs s hs

theorem sagStage_silent (currentSampleRate driveDb sagAmount : ℝ) (mode : SaturatorDSP.Mode)
    (sagEnvelope : List (SaturatorDSP.EnvelopeFollower ℝ)) (block : List (List ℝ))
    (hblock : IsSilent block) :
    IsSilent (SaturatorDSP.sagStage currentSampleRate driveDb 0 sagAmount mode sagEnvelope
      block).2 := by
  unfold SaturatorDSP.sagStage
  apply channelLoop_silent _ (fun e => e.envelope = 0)
  · intro st d hst hd
    exact sagLoop_silent _ _ _ st d hst hd
  · intro st hst
    simp only [SaturatorDSP.sagPrepare, List.mem_map] at hst
    obtain ⟨e, _, rfl⟩ := hst
    rfl
  · exact hblock

theorem iirProcess_silent {F O : Type} (J : Juce F O) (quietF : F → Prop) (quietO : O → Prop)
    (hJ : J.Quiet quietF quietO) (f : IIRFilter F) (buffer : List (List ℝ))
    (hf : quietF f.memory) (hb : IsSilent buffer) : IsSilent (f.process J buffer).2 := by
  simp only [IIRFilter.process]
  exact overwrite_silent _ _ (hJ.iirProcess f.state f.memory buffer hf hb)

theorem wetPath_silent {F O : Type} (J : Juce F O) (quietF : F → Prop) (quietO : O → Prop)
    (hJ : J.Quiet quietF quietO) (dsp : SaturatorDSP F O) (hdsp : dsp.Rested quietF quietO)
    (buffer : List (List ℝ)) (hbuf : IsSilent buffer)
    (inputTrimDb driveDb sagAmount outputTrimDb : ℝ) (mode : SaturatorDSP.Mode) :
    ∃ r, SaturatorDSP.wetPath J dsp buffer inputTrimDb driveDb 0 sagAmount outputTrimDb
        mode = some r ∧ IsSilent r.2 := by
  obtain ⟨o4, ho4, hq4⟩ := hdsp.os4
  obtain ⟨o8, ho8, hq8⟩ := hdsp.os8
  have hzero : ∀ dc : SaturatorDSP.DCBlocker ℝ, ∀ d : List ℝ, dc.x1 = 0 ∧ dc.y1 = 0 →
      (∀ s ∈ d, s = 0) → ∀ s ∈ (sampleLoop SaturatorDSP.DCBlocker.process dc d).2, s = 0 :=
    fun dc d h1 h2 => dcLoop_silent dc d h1 h2
  have h1 : IsSilent (applyGain (decibelsToGain inputTrimDb) buffer) :=
    applyGain_silent _ _ hbuf
  have h2 := channelLoop_silent _ (fun dc : SaturatorDSP.DCBlocker ℝ => dc.x1 = 0 ∧ dc.y1 = 0)
    hzero dsp.preDCBlocker _ hdsp.preDC h1
  have h3 := iirProcess_silent J quietF quietO hJ
    ⟨.makeHighPass dsp.currentSampleRate 60.0 0.5, dsp.preHPF.memory⟩ _ hdsp.preHPF h2
  unfold SaturatorDSP.wetPath
  by_cases hm : mode = .Torture
  · simp only [hm, if_true, decide_True]
    simp only [SaturatorDSP.updatePreEmphasis, ho8]
    refine ⟨_, rfl, ?_⟩
    apply applyGain_silent
    apply channelLoop_silent _ (fun dc : SaturatorDSP.DCBlocker ℝ => dc.x1 = 0 ∧ dc.y1 = 0)
      hzero _ _ (by simpa [SaturatorDSP.updatePostEmphasis] using hdsp.postDC)
    apply iirProcess_silent J quietF quietO hJ _ _
      (by simpa [SaturatorDSP.updatePostEmphasis] using hdsp.postPresenceDip)
    apply iirProcess_silent J quietF quietO hJ _ _
      (by simpa [SaturatorDSP.updatePostEmphasis] using hdsp.postLowShelf)
    apply iirProcess_silent J quietF quietO hJ _ _
      (by simpa [SaturatorDSP.updatePostEmphasis] using hdsp.postLPF)
    apply overwrite_silent
    intro ch i x _
    refine hJ.osProcessSamplesDown _ _ ?_ (sagStage_silent _ _ _ _ _ _ ?_) ch i
    · exact (hJ.osProcessSamplesUp _ _ hq8
        (iirProcess_silent J quietF quietO hJ _ _ (by exact hdsp.preHFShelf)
          (iirProcess_silent J quietF quietO hJ _ _ (by exact hdsp.preMidBoost) h3))).1
    · exact (hJ.osProcessSamplesUp _ _ hq8
        (iirProcess_silent J quietF quietO hJ _ _ (by exact hdsp.preHFShelf)
          (iirProcess_silent J quietF quietO hJ _ _ (by exact hdsp.preMidBoost) h3))).2
  · simp only [hm, if_false, decide_False]
    simp only [SaturatorDSP.updatePreEmphasis, ho4]
    refine ⟨_, rfl, ?_⟩
    apply applyGain_silent
    apply channelLoop_silent _ (fun dc : SaturatorDSP.DCBlocker ℝ => dc.x1 = 0 ∧ dc.y1 = 0)
      hzero _ _ (by simpa [SaturatorDSP.updatePostEmphasis] using hdsp.postDC)
    apply iirProcess_silent J quietF quietO hJ _ _
      (by simpa [SaturatorDSP.updatePostEmphasis] using hdsp.postPresenceDip)
    apply iirProcess_silent J quietF quietO hJ _ _
      (by simpa [SaturatorDSP.updatePostEmphasis] using hdsp.postLowShelf)
    apply iirProcess_silent J quietF quietO hJ _ _
      (by simpa [SaturatorDSP.updatePostEmphasis] using hdsp.postLPF)
    apply overwrite_silent
    intro ch i x _
    refine hJ.osProcessSamplesDown _ _ ?_ (sagStage_silent _ _ _ _ _ _ ?_) ch i
    · exact (hJ.osProcessSamplesUp _ _ hq4
        (iirProcess_silent J quietF quietO hJ _ _ (by exact hdsp.preHFShelf)
          (iirProcess_silent J quietF quietO hJ _ _ (by exact hdsp.preMidBoost) h3))).1
    · exact (hJ.osProcessSamplesUp _ _ hq4
        (iirProcess_silent J quietF quietO hJ _ _ (by exact hdsp.preHFShelf)
          (iirProcess_silent J quietF quietO hJ _ _ (by exact hdsp.preMidBoost) h3))).2

theorem sampleAt_silent {α : Type} [Zero α] (buffer : List (List α)) (h : IsSilent buffer)
    (ch i : ℕ) (x : α) (hx : sampleAt buffer ch i = some x) : x = 0 := by
  unfold sampleAt at hx
  cases hc : buffer[ch]? with
  | none => simp [hc] at hx
  | some chan =>
    simp only [hc, Option.some_bind] at hx
    exact h chan (List.getElem?_mem hc) x (List.getElem?_mem hx)

theorem sampleAt_getD_silent (buffer : List (List ℝ)) (h : IsSilent buffer) (ch i : ℕ) :
    (sampleAt buffer ch i).getD 0 = 0 := by
  cases hx : sampleAt buffer ch i with
  | none => rfl
  | some x => simp [sampleAt_silent buffer h ch i x hx]

theorem holdJuce_quiet : holdJuce.Quiet (fun _ => True) (fun _ => True) where
  iirPrepare := fun _ _ => trivial
  iirReset := fun _ => trivial
  iirProcess := fun _ _ buffer _ hb ch i _ _ => sampleAt_getD_silent buffer hb ch i
  osNew := fun _ _ _ => trivial
  osReset := fun _ => trivial
  osProcessSamplesUp := by
    intro o buffer _ hb
    refine ⟨trivial, ?_⟩
    intro chan hchan s hs
    simp only [holdJuce, List.mem_map] at hchan
    obtain ⟨c0, hc0, rfl⟩ := hchan
    simp only [List.mem_flatten, List.mem_map] at hs
    obtain ⟨l, ⟨s0, hs0, rfl⟩, hl⟩ := hs
    rw [(List.mem_replicate.mp hl).2]
    exact hb c0 hc0 s0 hs0
  osProcessSamplesDown := by
    intro o block _ hb ch i
    simp only [holdJuce]
    split
    · rfl
    · exact sampleAt_getD_silent block hb _ _

theorem prepare_rested {F O : Type} (J : Juce F O) (quietF : F → Prop) (quietO : O → Prop)
    (hJ : J.Quiet quietF quietO) (dsp : SaturatorDSP F O) (sampleRate : ℝ)
    (samplesPerBlock numChannels : ℕ) :
    (dsp.prepare J sampleRate samplesPerBlock numChannels).Rested quietF quietO where
  preDC := by
    intro dc hdc
    simp only [SaturatorDSP.prepare, SaturatorDSP.updatePreEmphasis,
      SaturatorDSP.updatePostEmphasis, List.mem_map] at hdc
    obtain ⟨d0, _, rfl⟩ := hdc
    exact ⟨rfl, rfl⟩
  postDC := by
    intro dc hdc
    simp only [SaturatorDSP.prepare, SaturatorDSP.updatePreEmphasis,
      SaturatorDSP.updatePostEmphasis, List.mem_map] at hdc
    obtain ⟨d0, _, rfl⟩ := hdc
    exact ⟨rfl, rfl⟩
  preHPF := hJ.iirPrepare _ _
  preMidBoost := hJ.iirPrepare _ _
  preHFShelf := hJ.iirPrepare _ _
  postLPF := hJ.iirPrepare _ _
  postLowShelf := hJ.iirPrepare _ _
  postPresenceDip := hJ.iirPrepare _ _
  os4 := ⟨_, rfl, hJ.osNew _ _ _⟩
  os8 := ⟨_, rfl, hJ.osNew _ _ _⟩

theorem reset_rested {F O : Type} (J : Juce F O) (quietF : F → Prop) (quietO : O → Prop)
    (hJ : J.Quiet quietF quietO) (dsp : SaturatorDSP F O)
    (h4 : dsp.oversampling4x.isSome) (h8 : dsp.oversampling8x.isSome) :
    (dsp.reset J).Rested quietF quietO where
  preDC := by
    intro dc hdc
    simp only [SaturatorDSP.reset, List.mem_map] at hdc
    obtain ⟨d0, _, rfl⟩ := hdc
    exact ⟨rfl, rfl⟩
  postDC := by
    intro dc hdc
    simp only [SaturatorDSP.reset, List.mem_map] at hdc
    obtain ⟨d0, _, rfl⟩ := hdc
    exact ⟨rfl, rfl⟩
  preHPF := hJ.iirReset _
  preMidBoost := hJ.iirReset _
  preHFShelf := hJ.iirReset _
  postLPF := hJ.iirReset _
  postLowShelf := hJ.iirReset _
  postPresenceDip := hJ.iirReset _
  os4 := by
    obtain ⟨o, ho⟩ := Option.isSome_iff_exists.mp h4
    exact ⟨J.osReset o, by simp [SaturatorDSP.reset, ho], hJ.osReset o⟩
  os8 := by
    obtain ⟨o, ho⟩ := Option.isSome_iff_exists.mp h8
    exact ⟨J.osReset o, by simp [SaturatorDSP.reset, ho], hJ.osReset o⟩

theorem process_silent {F O : Type} (J : Juce F O) (quietF : F → Prop) (quietO : O → Prop)
    (hJ : J.Quiet quietF quietO) (dsp : SaturatorDSP F O) (hdsp : dsp.Rested quietF quietO)
    (buffer : List (List ℝ)) (hbuf : IsSilent buffer)
    (inputTrimDb driveDb sagAmount outputTrimDb : ℝ) (mode : SaturatorDSP.Mode) :
    ∃ r, SaturatorDSP.process J dsp buffer inputTrimDb driveDb 0 sagAmount outputTrimDb 1
        mode = some r ∧ IsSilent r.2 ∧ r.2.map List.length = buffer.map List.length := by
  have hrest : SaturatorDSP.Rested { dsp with dryBuffer := buffer } quietF quietO :=
    ⟨hdsp.preDC, hdsp.postDC, hdsp.preHPF, hdsp.preMidBoost, hdsp.preHFShelf, hdsp.postLPF,
      hdsp.postLowShelf, hdsp.postPresenceDip, hdsp.os4, hdsp.os8⟩
  obtain ⟨r, hr, hsil⟩ := wetPath_silent J quietF quietO hJ _ hrest buffer hbuf inputTrimDb
    driveDb sagAmount outputTrimDb mode
  obtain ⟨o4, ho4, -⟩ := hdsp.os4
  obtain ⟨o8, ho8, -⟩ := hdsp.os8
  have hos : ∃ o, (if mode = .Torture then dsp.oversampling8x else dsp.oversampling4x) =
      some o := by
    by_cases hm : mode = .Torture
    · exact ⟨o8, by simp [hm, ho8]⟩
    · exact ⟨o4, by simp [hm, ho4]⟩
  obtain ⟨o, ho⟩ := hos
  obtain ⟨r', hr', -, hshape, -, -⟩ := wetPath_some J { dsp with dryBuffer := buffer } buffer
    inputTrimDb driveDb 0 sagAmount outputTrimDb mode o ho
  rw [hr] at hr'
  cases hr'
  refine ⟨(r.1, r.2), ?_, hsil, hshape⟩
  simp [SaturatorDSP.process, hr, SaturatorDSP.mixStage]

/-- C6: provided the external IIR and oversampler stages turn an all-zero
block into zeros from the states that preparing and resetting leave them in
(`Juce.Quiet`), a freshly prepared instance, and a prepared instance after
`reset`, process an all-zero block with driveDb = 0, bias = 0, sagAmount = 0
and mix = 1 into an all-zero block of the same shape, for every mode and
every trim setting; the valve shaper maps 0 to 0, and the per-sample stage
maps a zero sample to zero and keeps a zero envelope at zero. -/
theorem silence_in_silence_out {F O : Type} (J : Juce F O) (quietF : F → Prop)
    (quietO : O → Prop) (hJ : J.Quiet quietF quietO) (buffer : List (List ℝ))
    (hbuf : IsSilent buffer) (inputTrimDb outputTrimDb : ℝ) (mode : SaturatorDSP.Mode) :
    (∀ (dsp : SaturatorDSP F O) (sampleRate : ℝ) (samplesPerBlock numChannels : ℕ),
      ∃ r, SaturatorDSP.process J (dsp.prepare J sampleRate samplesPerBlock numChannels) buffer
          inputTrimDb 0 0 0 outputTrimDb 1 mode = some r ∧
        IsSilent r.2 ∧ r.2.map List.length = buffer.map List.length) ∧
    (∀ dsp : SaturatorDSP F O, dsp.oversampling4x.isSome → dsp.oversampling8x.isSome →
      ∃ r, SaturatorDSP.process J (dsp.reset J) buffer inputTrimDb 0 0 0 outputTrimDb 1
          mode = some r ∧
        IsSilent r.2 ∧ r.2.map List.length = buffer.map List.length) ∧
    (∀ a b : ℝ, SaturatorDSP.valveShaper 0 a b = 0) ∧
    (∀ (driveLinear : ℝ) (vp : SaturatorDSP.ValveParams ℝ)
      (e : SaturatorDSP.EnvelopeFollower ℝ), e.envelope = 0 →
      (SaturatorDSP.sagSample driveLinear 0 0 vp e 0).1.envelope = 0 ∧
        (SaturatorDSP.sagSample driveLinear 0 0 vp e 0).2 = 0) := by
  refine ⟨?_, ?_, valveShaper_zero, fun d vp e he => sagSample_zero d 0 vp e he⟩
  · intro dsp sampleRate samplesPerBlock numChannels
    exact process_silent J quietF quietO hJ _
      (prepare_rested J quietF quietO hJ dsp sampleRate samplesPerBlock numChannels) buffer hbuf
      inputTrimDb 0 0 outputTrimDb mode
  · intro dsp h4 h8
    exact process_silent J quietF quietO hJ _ (reset_rested J quietF quietO hJ dsp h4 h8)
      buffer hbuf inputTrimDb 0 0 outputTrimDb mode

/-- C6 with the stand-in collaborators, on a stereo block of two zero samples
per channel, in Torture mode. -/
theorem silence_in_silence_out_witness :
    ∃ r, SaturatorDSP.process holdJuce
        (SaturatorDSP.prepare holdJuce (SaturatorDSP.init holdJuce) 44100 2 2)
        [[0, 0], [0, 0]] 0 0 0 0 0 1 .Torture = some r ∧
      IsSilent r.2 ∧ r.2.map List.length = [2, 2] :=
  (silence_in_silence_out holdJuce (fun _ => True) (fun _ => True) holdJuce_quiet
    [[0, 0], [0, 0]] (by intro chan hchan s hs; simp at hchan; subst hchan; simpa using hs)
    0 0 .Torture).1 (SaturatorDSP.init holdJuce) 44100 2 2

/-! ## Latency reports -/

theorem updateLatency_spec {F O : Type} (J : Juce F O) (p : SaturatorProcessor F O)
    (mode : SaturatorDSP.Mode) :
    (p.updateLatency J mode).lastMode = mode ∧
    (p.updateLatency J mode).dsp = p.dsp ∧
    (p.updateLatency J mode).latencyReports =
      p.latencyReports ++
        (if mode ≠ p.lastMode then [⌈p.dsp.getLatencyInSamples J mode⌉] else []) := by
  unfold SaturatorProcessor.updateLatency
  by_cases h : mode ≠ p.lastMode
  · rw [if_pos h, if_pos h]
    exact ⟨rfl, rfl, rfl⟩
  · rw [if_neg h, if_neg h, List.append_nil]
    exact ⟨(not_not.mp h).symm, rfl, rfl⟩

theorem processBlock_spec {F O : Type} (J : Juce F O) (p : SaturatorProcessor F O)
    (h4 : p.dsp.oversampling4x.isSome) (h8 : p.dsp.oversampling8x.isSome)
    (buffer : List (List ℝ)) (c : BlockControls) :
    ∃ r, p.processBlock J buffer c = some r ∧
      r.1.lastMode = c.mode ∧
      r.1.latencyReports =
        p.latencyReports ++
          (if c.mode ≠ p.lastMode then [⌈p.dsp.getLatencyInSamples J c.mode⌉] else []) ∧
      r.1.dsp.oversampling4x.isSome ∧ r.1.dsp.oversampling8x.isSome := by
  obtain ⟨hl, hd, hr⟩ := updateLatency_spec J p c.mode
  have hos : ∃ o, (if c.mode = .Torture then (p.updateLatency J c.mode).dsp.oversampling8x
      else (p.updateLatency J c.mode).dsp.oversampling4x) = some o := by
    rw [hd]
    by_cases hm : c.mode = .Torture
    · simpa [hm] using Option.isSome_iff_exists.mp h8
    · simpa [hm] using Option.isSome_iff_exists.mp h4
  obtain ⟨o, ho⟩ := hos
  obtain ⟨dsp', wet, -, hproc, -, h4', h8'⟩ :=
    process_eq_mixStage J (p.updateLatency J c.mode).dsp
      (buffer.mapIdx fun i chan =>
        if p.totalNumInputChannels ≤ i ∧ i < p.totalNumOutputChannels then chan.map fun _ => 0
        else chan)
      c.inputTrimDb c.driveDb c.bias c.sag c.outputTrimDb c.mix c.mode o ho
  rw [hd] at h4' h8'
  have key : p.processBlock J buffer c =
      some ({ p.updateLatency J c.mode with dsp := dsp' },
        SaturatorDSP.mixStage c.mix
          (buffer.mapIdx fun i chan =>
            if p.totalNumInputChannels ≤ i ∧ i < p.totalNumOutputChannels then
              chan.map fun _ => 0
            else chan) wet) := by
    simp only [SaturatorProcessor.processBlock, hproc]
  exact ⟨_, key, hl, hr, h4' h4, h8' h8⟩

theorem processBlocks_step {F O : Type} (J : Juce F O) :
    ∀ (calls : List (List (List ℝ) × BlockControls)) (p : SaturatorProcessor F O)
      (k : ℕ) (call : List (List ℝ) × BlockControls),
      p.dsp.oversampling4x.isSome → p.dsp.oversampling8x.isSome →
      calls[k]? = some call →
      ∃ before after out prev,
        SaturatorProcessor.processBlocks J p (calls.take k) = some before ∧
        before.processBlock J call.1 call.2 = some (after, out) ∧
        SaturatorProcessor.processBlocks J p (calls.take (k + 1)) = some after ∧
        (p.lastMode :: calls.map fun c => c.2.mode)[k]? = some prev ∧
        before.lastMode = prev ∧
        after.latencyReports =
          before.latencyReports ++
            (if call.2.mode ≠ prev then [⌈before.dsp.getLatencyInSamples J call.2.mode⌉]
              else []) := by
  intro calls
  induction calls with
  | nil => intro p k call _ _ h; simp at h
  | cons c cs ih =>
    intro p k call h4 h8 hcall
    obtain ⟨r, hr, hl, hrep, h4', h8'⟩ := processBlock_spec J p h4 h8 c.1 c.2
    cases k with
    | zero =>
      simp only [List.getElem?_cons_zero, Option.some.injEq] at hcall
      subst hcall
      refine ⟨p, r.1, r.2, p.lastMode, rfl, hr, ?_, rfl, rfl, hrep⟩
      simp [SaturatorProcessor.processBlocks, hr]
    | succ k =>
      simp only [List.getElem?_cons_succ] at hcall
      obtain ⟨before, after, out, prev, hb, hstep, ha, hprev, hbl, hout⟩ :=
        ih r.1 k call h4' h8' hcall
      refine ⟨before, after, out, prev, ?_, hstep, ?_, ?_, hbl, hout⟩
      · simpa [SaturatorProcessor.processBlocks, hr] using hb
      · simpa [SaturatorProcessor.processBlocks, hr] using ha
      · rw [hl] at hprev
        simpa using hprev

/-- C5: over any sequence of `processBlock` calls on a prepared processor
whose `lastMode` is Triode, every call returns, and call `k` adds a latency
report exactly when its mode differs from the mode of call `k - 1`
(from Triode for the first call); the report is then the single value
`ceil(getLatencyInSamples(mode))`, and a call whose mode is unchanged adds
none. -/
theorem latency_reported_iff_mode_changed {F O : Type} (J : Juce F O)
    (p : SaturatorProcessor F O) (h4 : p.dsp.oversampling4x.isSome)
    (h8 : p.dsp.oversampling8x.isSome) (hlast : p.lastMode = .Triode)
    (calls : List (List (List ℝ) × BlockControls)) (k : ℕ)
    (call : List (List ℝ) × BlockControls) (hcall : calls[k]? = some call) :
    ∃ before after out prev,
      SaturatorProcessor.processBlocks J p (calls.take k) = some before ∧
      before.processBlock J call.1 call.2 = some (after, out) ∧
      SaturatorProcessor.processBlocks J p (calls.take (k + 1)) = some after ∧
      (SaturatorDSP.Mode.Triode :: calls.map fun c => c.2.mode)[k]? = some prev ∧
      after.latencyReports =
        before.latencyReports ++
          (if call.2.mode ≠ prev then [⌈before.dsp.getLatencyInSamples J call.2.mode⌉]
            else []) := by
  obtain ⟨before, after, out, prev, hb, hstep, ha, hprev, -, hout⟩ :=
    processBlocks_step J calls p k call h4 h8 hcall
  rw [hlast] at hprev
  exact ⟨before, after, out, prev, hb, hstep, ha, hprev, hout⟩

/-- C5 on a processor prepared with the stand-in collaborators: the second of
the calls Torture, Torture, Triode. -/
theorem latency_reported_iff_mode_changed_witness :
    ∃ before after out prev,
      SaturatorProcessor.processBlocks holdJuce
        (SaturatorProcessor.prepareToPlay holdJuce (SaturatorProcessor.init holdJuce) 44100 1)
        (List.take 1
          [([[1], [1]], ⟨0, 0, 0, 0, 0, 1, .Torture⟩), ([[1], [1]], ⟨0, 0, 0, 0, 0, 1, .Torture⟩),
            ([[1], [1]], ⟨0, 0, 0, 0, 0, 1, .Triode⟩)]) = some before ∧
      before.processBlock holdJuce [[1], [1]] ⟨0, 0, 0, 0, 0, 1, .Torture⟩ = some (after, out) ∧
      SaturatorProcessor.processBlocks holdJuce
        (SaturatorProcessor.prepareToPlay holdJuce (SaturatorProcessor.init holdJuce) 44100 1)
        (List.take (1 + 1)
          [([[1], [1]], ⟨0, 0, 0, 0, 0, 1, .Torture⟩), ([[1], [1]], ⟨0, 0, 0, 0, 0, 1, .Torture⟩),
            ([[1], [1]], ⟨0, 0, 0, 0, 0, 1, .Triode⟩)]) = some after ∧
      (SaturatorDSP.Mode.Triode ::
        List.map (fun c : List (List ℝ) × BlockControls => c.2.mode)
          [([[1], [1]], ⟨0, 0, 0, 0, 0, 1, .Torture⟩), ([[1], [1]], ⟨0, 0, 0, 0, 0, 1, .Torture⟩),
            ([[1], [1]], ⟨0, 0, 0, 0, 0, 1, .Triode⟩)])[1]? = some prev ∧
      after.latencyReports =
        before.latencyReports ++
          (if SaturatorDSP.Mode.Torture ≠ prev then
            [⌈before.dsp.getLatencyInSamples holdJuce SaturatorDSP.Mode.Torture⌉]
          else []) :=
  latency_reported_iff_mode_changed holdJuce
    (SaturatorProcessor.prepareToPlay holdJuce (SaturatorProcessor.init holdJuce) 44100 1)
    rfl rfl rfl _ 1 ([[1], [1]], ⟨0, 0, 0, 0, 0, 1, .Torture⟩) rfl

/-! ## Range of the sag envelope -/

theorem envelope_step_nonneg {α : Type} [LinearOrderedField α]
    (e : SaturatorDSP.EnvelopeFollower α) (x : α)
    (hA : 0 < e.attackCoeff ∧ e.attackCoeff < 1) (hR : 0 < e.releaseCoeff ∧ e.releaseCoeff < 1)
    (h0 : 0 ≤ e.envelope) : 0 ≤ (e.process x).2 := by
  have hx : 0 ≤ |x| := abs_nonneg x
  simp only [SaturatorDSP.EnvelopeFollower.process]
  split
  · have h : e.envelope + e.attackCoeff * (|x| - e.envelope) =
        (1 - e.attackCoeff) * e.envelope + e.attackCoeff * |x| := by ring
    rw [h]
    have h1 : 0 ≤ (1 - e.attackCoeff) * e.envelope := mul_nonneg (by linarith [hA.2]) h0
    have h2 : 0 ≤ e.attackCoeff * |x| := mul_nonneg (le_of_lt hA.1) hx
    linarith
  · have h : e.envelope + e.releaseCoeff * (|x| - e.envelope) =
        (1 - e.releaseCoeff) * e.envelope + e.releaseCoeff * |x| := by ring
    rw [h]
    have h1 : 0 ≤ (1 - e.releaseCoeff) * e.envelope := mul_nonneg (by linarith [hR.2]) h0
    have h2 : 0 ≤ e.releaseCoeff * |x| := mul_nonneg (le_of_lt hR.1) hx
    linarith

theorem envelope_step_le {α : Type} [LinearOrderedField α]
    (e : SaturatorDSP.EnvelopeFollower α) (x M : α)
    (hA : 0 < e.attackCoeff ∧ e.attackCoeff < 1) (hR : 0 < e.releaseCoeff ∧ e.releaseCoeff < 1)
    (hM : e.envelope ≤ M) (hx : |x| ≤ M) : (e.process x).2 ≤ M := by
  simp only [SaturatorDSP.EnvelopeFollower.process]
  split
  · have h : e.envelope + e.attackCoeff * (|x| - e.envelope) =
        (1 - e.attackCoeff) * e.envelope + e.attackCoeff * |x| := by ring
    rw [h]
    have h1 : (1 - e.attackCoeff) * e.envelope ≤ (1 - e.attackCoeff) * M :=
      mul_le_mul_of_nonneg_left hM (by linarith [hA.2])
    have h2 : e.attackCoeff * |x| ≤ e.attackCoeff * M :=
      mul_le_mul_of_nonneg_left hx (le_of_lt hA.1)
    linarith
  · have h : e.envelope + e.releaseCoeff * (|x| - e.envelope) =
        (1 - e.releaseCoeff) * e.envelope + e.releaseCoeff * |x| := by ring
    rw [h]
    have h1 : (1 - e.releaseCoeff) * e.envelope ≤ (1 - e.releaseCoeff) * M :=
      mul_le_mul_of_nonneg_left hM (by linarith [hR.2])
    have h2 : e.releaseCoeff * |x| ≤ e.releaseCoeff * M :=
      mul_le_mul_of_nonneg_left hx (le_of_lt hR.1)
    linarith

theorem envelope_loop_nonneg {α : Type} [LinearOrderedField α] (data : List α) :
    ∀ e : SaturatorDSP.EnvelopeFollower α,
      (0 < e.attackCoeff ∧ e.attackCoeff < 1) → (0 < e.releaseCoeff ∧ e.releaseCoeff < 1) →
      0 ≤ e.envelope →
      ∀ v ∈ (sampleLoop SaturatorDSP.EnvelopeFollower.process e data).2, 0 ≤ v := by
  induction data with
  | nil => intro e _ _ _ v hv; simp [sampleLoop] at hv
  | cons x xs ih =>
    intro e hA hR h0 v hv
    have hstep := envelope_step_nonneg e x hA hR h0
    simp only [sampleLoop, List.mem_cons] at hv
    rcases hv with hv | hv
    · rw [hv]; exact hstep
    · exact ih (e.process x).1 hA hR hstep v hv

theorem envelope_loop_le {α : Type} [LinearOrderedField α] (M : α) (data : List α) :
    ∀ e : SaturatorDSP.EnvelopeFollower α,
      (0 < e.attackCoeff ∧ e.attackCoeff < 1) → (0 < e.releaseCoeff ∧ e.releaseCoeff < 1) →
      e.envelope ≤ M → (∀ s ∈ data, |s| ≤ M) →
      ∀ v ∈ (sampleLoop SaturatorDSP.EnvelopeFollower.process e data).2, v ≤ M := by
  induction data with
  | nil => intro e _ _ _ _ v hv; simp [sampleLoop] at hv
  | cons x xs ih =>
    intro e hA hR hM hdata v hv
    have hstep := envelope_step_le e x M hA hR hM (hdata x (List.mem_cons_self _ _))
    simp only [sampleLoop, List.mem_cons] at hv
    rcases hv with hv | hv
    · rw [hv]; exact hstep
    · exact ih (e.process x).1 hA hR hstep (fun s hs => hdata s (List.mem_cons_of_mem _ hs))
        v hv

theorem smoothingCoeff_range (fs tau : ℝ) (hfs : 0 < fs) (htau : 0 < tau) :
    0 < 1 - Real.exp (-1 / (fs * tau)) ∧ 1 - Real.exp (-1 / (fs * tau)) < 1 := by
  have hpos := Real.exp_pos (-1 / (fs * tau))
  have hlt : Real.exp (-1 / (fs * tau)) < 1 := by
    rw [Real.exp_lt_one_iff]
    have h1 : 0 < 1 / (fs * tau) := by positivity
    have h2 : (-1 : ℝ) / (fs * tau) = -(1 / (fs * tau)) := by ring
    rw [h2]
    linarith
  constructor <;> linarith

theorem envelope_prepare_coeffs (e : SaturatorDSP.EnvelopeFollower ℝ) (fs : ℝ) :
    (e.prepare fs).envelope = 0 ∧
    (e.prepare fs).attackCoeff = 1 - Real.exp (-1 / (fs * 0.008)) ∧
    (e.prepare fs).releaseCoeff = 1 - Real.exp (-1 / (fs * 0.200)) := by
  refine ⟨rfl, ?_, ?_⟩
  · simp only [SaturatorDSP.EnvelopeFollower.prepare, SaturatorDSP.EnvelopeFollower.reset]
    norm_num
  · simp only [SaturatorDSP.EnvelopeFollower.prepare, SaturatorDSP.EnvelopeFollower.reset]
    norm_num

/-- C11: `process` moves the envelope towards `|x|` with the attack
coefficient when `|x|` exceeds the envelope and with the release coefficient
otherwise and returns the new envelope; after `prepare` at a positive sample
rate `fs` the envelope is 0 and the coefficients are
`1 - e^(-1/(fs*0.008))` and `1 - e^(-1/(fs*0.200))`, both in (0, 1); and
every value `process` returns on any input sequence from that state is
non-negative. -/
theorem envelope_output_nonneg (e : SaturatorDSP.EnvelopeFollower ℝ) (fs : ℝ) (hfs : 0 < fs)
    (data : List ℝ) :
    (∀ (f : SaturatorDSP.EnvelopeFollower ℝ) (x : ℝ),
      (f.process x).2 =
        f.envelope +
          (if |x| > f.envelope then f.attackCoeff else f.releaseCoeff) * (|x| - f.envelope) ∧
      (f.process x).1.envelope = (f.process x).2) ∧
    (e.prepare fs).envelope = 0 ∧
    ((e.prepare fs).attackCoeff = 1 - Real.exp (-1 / (fs * 0.008)) ∧
      0 < (e.prepare fs).attackCoeff ∧ (e.prepare fs).attackCoeff < 1) ∧
    ((e.prepare fs).releaseCoeff = 1 - Real.exp (-1 / (fs * 0.200)) ∧
      0 < (e.prepare fs).releaseCoeff ∧ (e.prepare fs).releaseCoeff < 1) ∧
    ∀ v ∈ (sampleLoop SaturatorDSP.EnvelopeFollower.process (e.prepare fs) data).2, 0 ≤ v := by
  obtain ⟨henv, hatt, hrel⟩ := envelope_prepare_coeffs e fs
  have hA := smoothingCoeff_range fs 0.008 hfs (by norm_num)
  have hR := smoothingCoeff_range fs 0.200 hfs (by norm_num)
  rw [← hatt] at hA
  rw [← hrel] at hR
  refine ⟨fun f x => ⟨rfl, rfl⟩, henv, ⟨hatt, hA⟩, ⟨hrel, hR⟩, ?_⟩
  exact envelope_loop_nonneg data _ hA hR (le_of_eq henv.symm)

/-- C11 at 176.4 kHz on the samples `1, -2, 0`. -/
theorem envelope_output_nonneg_witness :
    (0 : ℝ) < 176400 ∧
    ((SaturatorDSP.EnvelopeFollower.prepare ⟨0, 0, 0⟩ 176400).envelope = 0 ∧
      ∀ v ∈ (sampleLoop SaturatorDSP.EnvelopeFollower.process
        (SaturatorDSP.EnvelopeFollower.prepare ⟨0, 0, 0⟩ 176400) [1, -2, 0]).2, 0 ≤ v) :=
  ⟨by norm_num,
    (envelope_output_nonneg ⟨0, 0, 0⟩ 176400 (by norm_num) [1, -2, 0]).2.1,
    (envelope_output_nonneg ⟨0, 0, 0⟩ 176400 (by norm_num) [1, -2, 0]).2.2.2.2⟩

theorem envelope_loop_range (e : SaturatorDSP.EnvelopeFollower ℝ)
    (hA : 0 < e.attackCoeff ∧ e.attackCoeff < 1) (hR : 0 < e.releaseCoeff ∧ e.releaseCoeff < 1)
    (he : e.envelope = 0) (M : ℝ) (data : List ℝ) (hdata : ∀ s ∈ data, |s| ≤ M) :
    ∀ v ∈ (sampleLoop SaturatorDSP.EnvelopeFollower.process e data).2, 0 ≤ v ∧ v ≤ M := by
  intro v hv
  refine ⟨envelope_loop_nonneg data e hA hR (le_of_eq he.symm) v hv, ?_⟩
  cases data with
  | nil => simp [sampleLoop] at hv
  | cons x xs =>
    have hM : 0 ≤ M := le_trans (abs_nonneg x) (hdata x (List.mem_cons_self _ _))
    exact envelope_loop_le M (x :: xs) e hA hR (by rw [he]; exact hM) hdata v hv

theorem effectiveDrive_range (driveDb sagAmount env : ℝ) (hs0 : 0 ≤ sagAmount)
    (hs1 : sagAmount ≤ 0.6) (he0 : 0 ≤ env) (he1 : env ≤ 1) :
    0.4 * (10 : ℝ) ^ (driveDb / 20) ≤ (10 : ℝ) ^ (driveDb / 20) * (1 - sagAmount * env) ∧
    (10 : ℝ) ^ (driveDb / 20) * (1 - sagAmount * env) ≤ (10 : ℝ) ^ (driveDb / 20) ∧
    0 < (10 : ℝ) ^ (driveDb / 20) * (1 - sagAmount * env) := by
  have hd : 0 < (10 : ℝ) ^ (driveDb / 20) := Real.rpow_pos_of_pos (by norm_num) _
  have h1 : 0 ≤ sagAmount * env := mul_nonneg hs0 he0
  have h2 : sagAmount * env ≤ 0.6 * 1 := mul_le_mul hs1 he1 he0 (by norm_num)
  have h3 : (0.4 : ℝ) ≤ 1 - sagAmount * env := by norm_num at h2 ⊢; linarith
  have h4 : 1 - sagAmount * env ≤ 1 := by linarith
  refine ⟨?_, ?_, ?_⟩
  · rw [mul_comm (0.4 : ℝ)]
    exact mul_le_mul_of_nonneg_left h3 (le_of_lt hd)
  · calc (10 : ℝ) ^ (driveDb / 20) * (1 - sagAmount * env)
        ≤ (10 : ℝ) ^ (driveDb / 20) * 1 := mul_le_mul_of_nonneg_left h4 (le_of_lt hd)
      _ = (10 : ℝ) ^ (driveDb / 20) := mul_one _
  · exact mul_pos hd (by norm_num at h3 ⊢; linarith)

theorem sagLoop_effectiveDrive (driveLinear bias sagAmount : ℝ)
    (vp : SaturatorDSP.ValveParams ℝ) (e : SaturatorDSP.EnvelopeFollower ℝ) (data : List ℝ)
    (i : ℕ) (s : ℝ) (hs : data[i]? = some s) :
    ∃ env, (sampleLoop SaturatorDSP.EnvelopeFollower.process e data).2[i]? = some env ∧
      (sampleLoop (SaturatorDSP.sagSample driveLinear bias sagAmount vp) e data).2[i]? =
        some (SaturatorDSP.valveShaper ((s + bias) * (driveLinear * (1 - sagAmount * env)))
          vp.curvature vp.asymmetry) := by
  refine ⟨((sampleLoop SaturatorDSP.EnvelopeFollower.process e (data.take i)).1.process s).2,
    ?_, ?_⟩
  · rw [sampleLoop_getElem?, hs, Option.map_some']
  · rw [sampleLoop_getElem?, hs, Option.map_some', sagLoop_fst]
    simp only [SaturatorDSP.sagSample]
    norm_num

/-- C14: for a follower with both coefficients in (0, 1) and envelope 0, fed
samples with `|s| <= M`, every envelope value lies in `[0, M]`; and when
moreover `0 <= sagAmount <= 0.6` and `M <= 1`, each sample `s` of the loop is
replaced by `valveShaper((s + bias) * effectiveDrive, a, b)` with
`effectiveDrive = driveLinear * (1 - sagAmount*env)`,
`driveLinear = 10^(driveDb/20)`, and this effective drive lies in
`[0.4*driveLinear, driveLinear]` and is strictly positive. -/
theorem sag_effective_drive_range (e : SaturatorDSP.EnvelopeFollower ℝ)
    (hA : 0 < e.attackCoeff ∧ e.attackCoeff < 1) (hR : 0 < e.releaseCoeff ∧ e.releaseCoeff < 1)
    (he : e.envelope = 0) (M : ℝ) (data : List ℝ) (hdata : ∀ s ∈ data, |s| ≤ M) :
    (∀ v ∈ (sampleLoop SaturatorDSP.EnvelopeFollower.process e data).2, 0 ≤ v ∧ v ≤ M) ∧
    ∀ (driveDb bias sagAmount : ℝ) (vp : SaturatorDSP.ValveParams ℝ),
      0 ≤ sagAmount → sagAmount ≤ 0.6 → M ≤ 1 →
      ∀ (i : ℕ) (s : ℝ), data[i]? = some s →
        ∃ env,
          (sampleLoop SaturatorDSP.EnvelopeFollower.process e data).2[i]? = some env ∧
          (sampleLoop (SaturatorDSP.sagSample ((10 : ℝ) ^ (driveDb / 20)) bias sagAmount vp)
              e data).2[i]? =
            some (SaturatorDSP.valveShaper
              ((s + bias) * ((10 : ℝ) ^ (driveDb / 20) * (1 - sagAmount * env)))
              vp.curvature vp.asymmetry) ∧
          0.4 * (10 : ℝ) ^ (driveDb / 20) ≤
            (10 : ℝ) ^ (driveDb / 20) * (1 - sagAmount * env) ∧
          (10 : ℝ) ^ (driveDb / 20) * (1 - sagAmount * env) ≤ (10 : ℝ) ^ (driveDb / 20) ∧
          0 < (10 : ℝ) ^ (driveDb / 20) * (1 - sagAmount * env) := by
  have hrange := envelope_loop_range e hA hR he M data hdata
  refine ⟨hrange, ?_⟩
  intro driveDb bias sagAmount vp hs0 hs1 hM i s hs
  obtain ⟨env, henv, hout⟩ := sagLoop_effectiveDrive ((10 : ℝ) ^ (driveDb / 20)) bias sagAmount
    vp e data i s hs
  have hb := hrange env (List.getElem?_mem henv)
  exact ⟨env, henv, hout,
    effectiveDrive_range driveDb sagAmount env hs0 hs1 hb.1 (le_trans hb.2 hM)⟩

/-- C14 for attack 1/2, release 1/4 and the samples `1, -1` (peak 1). -/
theorem sag_effective_drive_range_witness :
    (∀ s ∈ ([1, -1] : List ℝ), |s| ≤ 1) ∧
    (∀ v ∈ (sampleLoop SaturatorDSP.EnvelopeFollower.process
      (⟨0, 1 / 2, 1 / 4⟩ : SaturatorDSP.EnvelopeFollower ℝ) [1, -1]).2, 0 ≤ v ∧ v ≤ 1) :=
  ⟨by intro s hs; simp at hs; rcases hs with rfl | rfl <;> norm_num,
    (sag_effective_drive_range ⟨0, 1 / 2, 1 / 4⟩ (by norm_num) (by norm_num) rfl 1 [1, -1]
      (by intro s hs; simp at hs; rcases hs with rfl | rfl <;> norm_num)).1⟩

/-! ## Asymmetry of the valve shaper -/

